import Mathlib

/-!
# OpenAPI security scanner: rule engine, score calculator, finding aggregator

A shallow embedding of the Go sources (base.go, scorer.go, helper.go,
analyzer.go, secc_rules.go) together with theorems about them.

Conventions of the embedding

* A Go slice is a Lean list.
* A Go map with string keys is a list of key/value entries with pairwise
  distinct keys.  Go leaves the order in which range enumerates a map
  unspecified; the order of the entry list stands for the order in which the
  runtime happens to enumerate the map.  One call of one rule ranges over each
  map at most once, so every run of a rule is the rule applied to some
  enumeration of the document.  Go draws a fresh order at every range
  statement, so different rules, and different analyses, need not enumerate a
  map alike: theorems that compare findings across rules or across analyses
  are stated rule by rule or up to permutation, not as an order of findings.
* Go int is the 64-bit two's complement integer; arithmetic on it wraps.
-/

namespace SecScan

/-! ## base.go -/

/-- Finding represents a security issue found in the OpenAPI spec (base.go). -/
structure Finding where
  RuleID : String
  Severity : String
  Description : String
  Location : String
  Recommendation : String
  deriving DecidableEq, Repr

/-- CreateFinding creates a new Finding (base.go). -/
def CreateFinding (ruleID severity description location recommendation : String) : Finding :=
  { RuleID := ruleID, Severity := severity, Description := description,
    Location := location, Recommendation := recommendation }

/-! ## scorer.go -/

/-- Two's complement wrap-around of a mathematical integer into the range of Go's
64-bit int. -/
def wrapInt64 (x : Int) : Int :=
  (x + 9223372036854775808) % 18446744073709551616 - 9223372036854775808

/-- The amount the switch statement of CalculateScore subtracts for a severity
string; a severity matching no case leaves the score as it is. -/
def penalty (severity : String) : Int :=
  if severity = "Critical" then 20
  else if severity = "High" then 10
  else if severity = "Medium" then 5
  else if severity = "Low" then 2
  else 0

/-- One iteration of the loop of CalculateScore: score -= penalty, on Go's int. -/
def scoreStep (score : Int) (finding : Finding) : Int :=
  wrapInt64 (score - penalty finding.Severity)

/-- CalculateScore (scorer.go): start at 100, subtract per finding, clamp once at
the end. -/
def CalculateScore (findings : List Finding) : Int :=
  let score := findings.foldl scoreStep 100
  if score < 0 then 0 else score

/-- The largest number of elements a slice of Finding can have: a Finding is five
string headers of 16 bytes each, and the slice has to fit in a 64-bit address
space, so its length is at most 2^64 / 80. -/
def maxFindings : Nat := 230584300921369395

/-- The sum of the penalties of a finding list. -/
def totalPenalty (findings : List Finding) : Int :=
  (findings.map (fun f => penalty f.Severity)).sum


/-! ## helper.go -/

/-- GroupedFinding represents aggregated findings for a rule (helper.go). -/
structure GroupedFinding where
  RuleID : String
  Severity : String
  Count : Nat
  Locations : List String
  Description : String
  Recommendation : String
  deriving DecidableEq, Repr

/-- The local variable groupMap of GroupFindings, a map[string][]Finding: one entry
per key, listed in the order in which the keys were first inserted. -/
abbrev GroupMap := List (String × List Finding)

/-- The statement groupMap[f.RuleID] = append(groupMap[f.RuleID], f): the finding is
appended to the slice stored under its rule id; reading a missing key gives the
nil slice, so a new key starts with the one-element slice. -/
def groupInsert : GroupMap → Finding → GroupMap
  | [], f => [(f.RuleID, [f])]
  | (k, items) :: rest, f =>
    if k = f.RuleID then (k, items ++ [f]) :: rest
    else (k, items) :: groupInsert rest f

/-- The first loop of GroupFindings (group by RuleID). -/
def buildGroupMap (findings : List Finding) : GroupMap :=
  findings.foldl groupInsert []

/-- The function extractLocations (helper.go). -/
def extractLocations (items : List Finding) : List String :=
  items.foldl (fun locations item => locations ++ [item.Location]) []

/-- The body of the second loop of GroupFindings for one map entry.  The expression
items[0] panics on an empty slice, which is the result none. -/
def groupEntry (ruleID : String) (items : List Finding) : Option GroupedFinding :=
  match items with
  | [] => none
  | first :: _ =>
    some { RuleID := ruleID, Severity := first.Severity, Count := items.length,
           Locations := extractLocations items, Description := first.Description,
           Recommendation := first.Recommendation }

/-- The second loop of GroupFindings over the entries of groupMap as enumerated. -/
def collectGroups : GroupMap → Option (List GroupedFinding)
  | [] => some []
  | (ruleID, items) :: rest =>
    match groupEntry ruleID items with
    | none => none
    | some g =>
      match collectGroups rest with
      | none => none
      | some gs => some (g :: gs)

/-- GroupFindings groups findings by rule_id (helper.go).  The argument rangeOrder is
the order in which the runtime enumerates groupMap in the second loop: Go leaves it
unspecified, so it is any function that permutes the entries.  The result none stands
for a run-time panic. -/
def GroupFindings (rangeOrder : GroupMap → GroupMap) (findings : List Finding) :
    Option (List GroupedFinding) :=
  collectGroups (rangeOrder (buildGroupMap findings))

/-- A rangeOrder is admissible when it only permutes the entries of the map. -/
def IsRangeOrder (rangeOrder : GroupMap → GroupMap) : Prop :=
  ∀ m, (rangeOrder m).Perm m

/-- The slice stored under a key of groupMap, if the key is present. -/
def groupLookup : GroupMap → String → Option (List Finding)
  | [], _ => none
  | (k, items) :: rest, key => if k = key then some items else groupLookup rest key

/-- What the first loop of GroupFindings has built after reading the findings fs. -/
structure GroupInv (fs : List Finding) (m : GroupMap) : Prop where
  nodup : (m.map Prod.fst).Nodup
  keys : ∀ key, key ∈ m.map Prod.fst ↔ key ∈ fs.map (fun f => f.RuleID)
  items : ∀ key, key ∈ m.map Prod.fst →
    groupLookup m key = some (fs.filter (fun f => decide (f.RuleID = key)))

/-! ## parser.go: the document model -/

/-- A decoded YAML or JSON value, the dynamic content of a Go interface{}: null,
boolean, integer, string, sequence ([]interface{}) or mapping
(map[string]interface{}).  The constructor other stands for a value of any other
dynamic type the decoder can produce (a float64, a time.Time, a mapping with a
non-string key); the rules can only tell that it is none of the above and print it
with the verb %v, so it is given by that rendering. -/
inductive Value where
  | null
  | bool (b : Bool)
  | num (n : Int)
  | str (s : String)
  | seq (items : List Value)
  | map (entries : List (String × Value))
  | other (rendered : String)

/-- A non-nil map[string]interface{}. -/
abbrev Object := List (String × Value)

/-- The type OpenAPISpec map[string]interface{} (parser.go); none is the nil map. -/
abbrev OpenAPISpec := Option Object

/-- Index into a non-nil map: the value stored under the key, if the key is present. -/
def lookupKey : Object → String → Option Value
  | [], _ => none
  | (k, v) :: rest, key => if k = key then some v else lookupKey rest key

/-- The index expression m[key] on a possibly nil map: none when the key is absent
(the comma-ok flag is false and the value is the nil interface). -/
def mapIndex (m : Option Object) (key : String) : Option Value :=
  match m with
  | none => none
  | some entries => lookupKey entries key

/-- The entries a range loop enumerates; ranging over a nil map runs no iteration. -/
def mapRange (m : Option Object) : Object :=
  match m with
  | none => []
  | some entries => entries

/-- The type assertion x.(map[string]interface{}) with comma-ok; none is a failed
assertion, which leaves the nil map. -/
def asMap : Option Value → Option Object
  | some (Value.map entries) => some entries
  | _ => none

/-- The type assertion x.([]interface{}) with the ok flag dropped; a failed assertion
leaves the nil slice. -/
def asSeq : Option Value → List Value
  | some (Value.seq items) => items
  | _ => []

/-- The type assertion x.(string) with the ok flag dropped; a failed assertion leaves
the empty string. -/
def asString : Option Value → String
  | some (Value.str s) => s
  | _ => ""

/-- The type assertion x.(bool) with comma-ok. -/
def asBool : Option Value → Option Bool
  | some (Value.bool b) => some b
  | _ => none

/-- The comparison x == "s" of an interface value with a string constant. -/
def eqString : Option Value → String → Bool
  | some (Value.str t), s => decide (t = s)
  | _, _ => false

/-- The comparison x == nil of an interface value: true for an absent key and for a
key holding null. -/
def isNil : Option Value → Bool
  | none => true
  | some Value.null => true
  | _ => false

/-! ## Go library functions used by the rules -/

/-- The function strings.HasPrefix. -/
def stringsHasPrefix (s pre : String) : Bool :=
  pre.data.isPrefixOf s.data

/-- Substring test on character lists. -/
def containsChars : List Char → List Char → Bool
  | [], sub => sub.isPrefixOf []
  | c :: cs, sub => sub.isPrefixOf (c :: cs) || containsChars cs sub

/-- The function strings.Contains. -/
def stringsContains (s substr : String) : Bool :=
  containsChars s.data substr.data

/-- Lower case of one rune for the purposes of the rules: ASCII letters, and the two
non-ASCII runes whose lower case is an ASCII letter (U+212A KELVIN SIGN gives k,
U+0130 gives i).  Every other rune has a non-ASCII lower case and is kept as it is;
the result is only ever matched against ASCII constants, which such a rune cannot
match either way. -/
def lowerRune (c : Char) : Char :=
  if 65 ≤ c.toNat ∧ c.toNat ≤ 90 then Char.ofNat (c.toNat + 32)
  else if c.toNat = 8490 then Char.ofNat 107
  else if c.toNat = 304 then Char.ofNat 105
  else c

/-- The function strings.ToLower. -/
def stringsToLower (s : String) : String :=
  String.mk (s.data.map lowerRune)

/-- Strict lexicographic order on character lists, the order in which fmt sorts
string map keys. -/
def ltChars : List Char → List Char → Bool
  | _, [] => false
  | [], _ :: _ => true
  | a :: as, b :: bs => a.toNat < b.toNat || (a.toNat = b.toNat && ltChars as bs)

/-- Insert a rendered map entry into a list sorted by key. -/
def insertByKey (e : String × String) : List (String × String) → List (String × String)
  | [] => [e]
  | x :: xs => if ltChars x.1.data e.1.data then x :: insertByKey e xs else e :: x :: xs

/-- Sort rendered map entries by key. -/
def sortByKey : List (String × String) → List (String × String)
  | [] => []
  | e :: es => insertByKey e (sortByKey es)

mutual
/-- The verb %v of fmt applied to a decoded value. -/
def fmtValue : Value → String
  | Value.null => "<nil>"
  | Value.bool b => if b then "true" else "false"
  | Value.num n => toString n
  | Value.str s => s
  | Value.other rendered => rendered
  | Value.seq items => "[" ++ " ".intercalate (fmtValues items) ++ "]"
  | Value.map entries =>
    "map[" ++ " ".intercalate ((sortByKey (fmtEntries entries)).map
      (fun e => e.1 ++ ":" ++ e.2)) ++ "]"
/-- The verb %v on each element of a sequence. -/
def fmtValues : List Value → List String
  | [] => []
  | v :: vs => fmtValue v :: fmtValues vs
/-- The verb %v on each value of a mapping, keeping the keys. -/
def fmtEntries : List (String × Value) → List (String × String)
  | [] => []
  | (k, v) :: es => (k, fmtValue v) :: fmtEntries es
end

/-- The verb %v applied to the interface value m[key]; the nil interface prints as
<nil>. -/
def fmtV : Option Value → String
  | none => "<nil>"
  | some v => fmtValue v

/-! ## secc_rules.go -/

/-- The two nested range loops that open every path rule: over the entries of
spec["paths"] and over the entries of each path item that is a mapping, skipping
method keys that start with x- and operations that are not mappings; body is the
rest of the inner loop. -/
def forEachOperation (spec : OpenAPISpec)
    (body : String → String → Object → List Finding) : List Finding :=
  (mapRange (asMap (mapIndex spec "paths"))).flatMap fun pathEntry =>
    match asMap (some pathEntry.2) with
    | none => []
    | some methods =>
      methods.flatMap fun methodEntry =>
        if stringsHasPrefix methodEntry.1 "x-" then []
        else
          match asMap (some methodEntry.2) with
          | none => []
          | some details => body pathEntry.1 methodEntry.1 details

/-- The rule CheckSEC001NoGlobalSecurity. -/
def CheckSEC001NoGlobalSecurity (spec : OpenAPISpec) : List Finding :=
  let isV2 := (mapIndex spec "swagger").isSome
  let isV3 := (mapIndex spec "openapi").isSome
  let hasGlobalSecurity := (mapIndex spec "security").isSome
  let hasDefinitions :=
    if isV2 then (mapIndex spec "securityDefinitions").isSome
    else if isV3 then
      match asMap (mapIndex spec "components") with
      | some components => (lookupKey components "securitySchemes").isSome
      | none => false
    else false
  if !hasGlobalSecurity && !hasDefinitions then
    [CreateFinding "SEC001" "Critical"
      "No global security definition found in OpenAPI specification"
      "root"
      "Define global security schemes and apply them at the root level"]
  else []

/-- The rule CheckSEC002UnprotectedEndpoints. -/
def CheckSEC002UnprotectedEndpoints (spec : OpenAPISpec) : List Finding :=
  let globalSecurity := mapIndex spec "security"
  let hasGlobal := globalSecurity.isSome
  forEachOperation spec fun path method details =>
    let hasOperationSecurity := (lookupKey details "security").isSome
    if !hasGlobal || isNil globalSecurity then
      if !hasOperationSecurity then
        [CreateFinding "SEC002" "High"
          "Endpoint has no security requirements defined"
          ("paths." ++ path ++ "." ++ method ++ ".security")
          "Apply authentication using global or operation-level security"]
      else []
    else []

/-- The rule CheckSEC003HTTPAllowed. -/
def CheckSEC003HTTPAllowed (spec : OpenAPISpec) : List Finding :=
  let v3 :=
    if (mapIndex spec "openapi").isSome then
      (asSeq (mapIndex spec "servers")).enum.flatMap fun indexed =>
        match asMap (some indexed.2) with
        | none => []
        | some server =>
          let url := asString (lookupKey server "url")
          if stringsHasPrefix url "http://" then
            [CreateFinding "SEC003" "High"
              "Insecure HTTP protocol allowed in server URL"
              ("servers[" ++ toString indexed.1 ++ "].url")
              "Use HTTPS instead of HTTP for all server URLs"]
          else []
    else []
  let v2 :=
    if eqString (mapIndex spec "swagger") "2.0" then
      if (asSeq (mapIndex spec "schemes")).any (fun s => eqString (some s) "http") then
        [CreateFinding "SEC003" "High"
          "Insecure HTTP protocol allowed in schemes"
          "schemes"
          "Remove HTTP and enforce HTTPS only"]
      else []
    else []
  v3 ++ v2

/-- The rule CheckSEC004NoRateLimitHeaders. -/
def CheckSEC004NoRateLimitHeaders (spec : OpenAPISpec) : List Finding :=
  forEachOperation spec fun path method details =>
    let responses := asMap (lookupKey details "responses")
    let rateLimitFound :=
      (mapRange responses).any fun respEntry =>
        match asMap (some respEntry.2) with
        | none => false
        | some resp =>
          (mapRange (asMap (lookupKey resp "headers"))).any fun headerEntry =>
            stringsHasPrefix (stringsToLower headerEntry.1) "x-ratelimit"
    if !rateLimitFound then
      [CreateFinding "SEC004" "Medium"
        "No rate limiting headers defined in responses"
        ("paths." ++ path ++ "." ++ method ++ ".responses")
        "Include X-RateLimit-* headers to indicate API rate limits"]
    else []

/-- The slice sensitive of CheckSEC005SensitiveQueryParams. -/
def sensitive : List String :=
  ["password", "token", "secret", "api_key", "apikey", "auth"]

/-- The rule CheckSEC005SensitiveQueryParams. -/
def CheckSEC005SensitiveQueryParams (spec : OpenAPISpec) : List Finding :=
  forEachOperation spec fun path method details =>
    (asSeq (lookupKey details "parameters")).flatMap fun p =>
      match asMap (some p) with
      | none => []
      | some param =>
        if eqString (lookupKey param "in") "query" then
          let name := asString (lookupKey param "name")
          let lower := stringsToLower name
          if sensitive.any (fun k => stringsContains lower k) then
            [CreateFinding "SEC005" "Medium"
              "Sensitive data exposed in query parameter"
              ("paths." ++ path ++ "." ++ method ++ ".parameters." ++ name)
              "Avoid using sensitive data in query parameters; use headers or request body instead"]
          else []
        else []

/-- The keys of the map required of CheckSEC006MissingErrorResponses. -/
def required : List String := ["401", "403", "429"]

/-- The rule CheckSEC006MissingErrorResponses. -/
def CheckSEC006MissingErrorResponses (spec : OpenAPISpec) : List Finding :=
  forEachOperation spec fun path method details =>
    let responses := asMap (lookupKey details "responses")
    let missing := required.any fun code => !(mapIndex responses code).isSome
    if missing then
      [CreateFinding "SEC006" "Medium"
        "Missing standard error response definitions (401, 403, 429)"
        ("paths." ++ path ++ "." ++ method ++ ".responses")
        "Define 401, 403, and 429 error responses for better security and API resilience"]
    else []

/-- The rule CheckSEC007MissingSecurityContact. -/
def CheckSEC007MissingSecurityContact (spec : OpenAPISpec) : List Finding :=
  let info := asMap (mapIndex spec "info")
  let hasContact := (mapIndex info "contact").isSome
  let hasSecurityContact := (mapIndex info "x-security-contact").isSome
  if !hasContact && !hasSecurityContact then
    [CreateFinding "SEC007" "Low"
      "No contact or security contact information provided"
      "info"
      "Add info.contact or x-security-contact for vulnerability reporting"]
  else []

/-- The rule CheckSEC008DeprecatedWithoutSunset. -/
def CheckSEC008DeprecatedWithoutSunset (spec : OpenAPISpec) : List Finding :=
  forEachOperation spec fun path method details =>
    match asBool (lookupKey details "deprecated") with
    | some true =>
      if !(lookupKey details "sunset").isSome then
        if !(lookupKey details "x-sunset").isSome then
          if !(lookupKey details "x-deprecation-date").isSome then
            [CreateFinding "SEC008" "Low"
              "Deprecated endpoint does not specify sunset or removal information"
              ("paths." ++ path ++ "." ++ method)
              "Add sunset or deprecation timeline information for deprecated endpoints"]
          else []
        else []
      else []
    | _ => []

/-- The rule CheckSEC009WildcardServerURL. -/
def CheckSEC009WildcardServerURL (spec : OpenAPISpec) : List Finding :=
  if !(mapIndex spec "openapi").isSome then []
  else
    (asSeq (mapIndex spec "servers")).enum.flatMap fun indexed =>
      match asMap (some indexed.2) with
      | none => []
      | some server =>
        let url := asString (lookupKey server "url")
        let vars := asMap (lookupKey server "variables")
        let hasVars := vars.isSome
        let hasWildcard := stringsContains url "*"
        let hasTemplate := stringsContains url "\x7b" && stringsContains url "\x7d"
        if (hasWildcard || hasTemplate) && !hasVars then
          [CreateFinding "SEC009" "High"
            "Server URL contains wildcard or templated host without variable constraints"
            ("servers[" ++ toString indexed.1 ++ "].url")
            "Avoid wildcards or define server variables with enum constraints"]
        else if hasTemplate && hasVars then
          let unconstrained := (mapRange vars).find? fun varEntry =>
            match asMap (some varEntry.2) with
            | none => false
            | some variableMap => !(lookupKey variableMap "enum").isSome
          match unconstrained with
          | some varEntry =>
            [CreateFinding "SEC009" "High"
              "Server URL contains templated host without enum constraints"
              ("servers[" ++ toString indexed.1 ++ "].variables." ++ varEntry.1)
              "Constrain server variables using enum values"]
          | none => []
        else []

/-- The map validationKeys of CheckSEC010NoInputValidation, a map[string]bool. -/
def validationKeys : List (String × Bool) :=
  [("minLength", true), ("maxLength", true), ("minimum", true), ("maximum", true),
   ("pattern", true), ("enum", true)]

/-- The index expression keys[k] on a map[string]bool: false for a missing key. -/
def boolIndex : List (String × Bool) → String → Bool
  | [], _ => false
  | (k, b) :: rest, key => if k = key then b else boolIndex rest key

/-- The function hasAnyKey. -/
def hasAnyKey (m : Object) (keys : List (String × Bool)) : Bool :=
  m.any fun entry => boolIndex keys entry.1

/-- The rule CheckSEC010NoInputValidation. -/
def CheckSEC010NoInputValidation (spec : OpenAPISpec) : List Finding :=
  forEachOperation spec fun path method details =>
    let fromParameters :=
      (asSeq (lookupKey details "parameters")).flatMap fun p =>
        match asMap (some p) with
        | none => []
        | some param =>
          match asMap (lookupKey param "schema") with
          | none => []
          | some schema =>
            if !hasAnyKey schema validationKeys then
              [CreateFinding "SEC010" "Medium"
                "Input parameter lacks validation constraints"
                ("paths." ++ path ++ "." ++ method ++ ".parameters." ++
                  fmtV (lookupKey param "name"))
                "Define input validation such as min/max, pattern, or enum"]
            else []
    let requestBody := asMap (lookupKey details "requestBody")
    let content := asMap (mapIndex requestBody "content")
    let fromRequestBody :=
      (mapRange content).flatMap fun mediaEntry =>
        match asMap (some mediaEntry.2) with
        | none => []
        | some media =>
          match asMap (lookupKey media "schema") with
          | none => []
          | some schema =>
            if !hasAnyKey schema validationKeys then
              [CreateFinding "SEC010" "Medium"
                "Request body schema lacks validation constraints"
                ("paths." ++ path ++ "." ++ method ++ ".requestBody")
                "Add validation constraints to request body schema"]
            else []
    fromParameters ++ fromRequestBody

/-! ## analyzer.go -/

/-- A rule of the catalog, func(OpenAPISpec) []Finding. -/
abbrev Rule := OpenAPISpec → List Finding

/-- The type Analyzer (analyzer.go). -/
structure Analyzer where
  rules : List Rule

/-- The function NewAnalyzer. -/
def NewAnalyzer (rules : List Rule) : Analyzer :=
  { rules := rules }

/-- The method Analyze: findings = append(findings, rule(spec)...) for each rule. -/
def Analyzer.Analyze (a : Analyzer) (spec : OpenAPISpec) : List Finding :=
  a.rules.foldl (fun findings rule => findings ++ rule spec) []

/-- The function DefaultRules. -/
def DefaultRules : List Rule :=
  [CheckSEC001NoGlobalSecurity,
   CheckSEC002UnprotectedEndpoints,
   CheckSEC003HTTPAllowed,
   CheckSEC004NoRateLimitHeaders,
   CheckSEC005SensitiveQueryParams,
   CheckSEC006MissingErrorResponses,
   CheckSEC007MissingSecurityContact,
   CheckSEC008DeprecatedWithoutSunset,
   CheckSEC009WildcardServerURL,
   CheckSEC010NoInputValidation]

/-- Analysis with the default catalog, as the handlers of analyze.go run it:
NewAnalyzer(DefaultRules()).Analyze(spec). -/
def analyzeDefault (spec : OpenAPISpec) : List Finding :=
  (NewAnalyzer DefaultRules).Analyze spec

/-! ## The templates of the catalog -/

/-- The severity, description and recommendation that the rule with the given id
writes into its findings, read off the CreateFinding calls of secc_rules.go; for a
rule with two messages (SEC003, SEC009, SEC010) the description and recommendation
are those of its first message. -/
def ruleTemplate (ruleID : String) : String × String × String :=
  if ruleID = "SEC001" then
    ("Critical", "No global security definition found in OpenAPI specification",
      "Define global security schemes and apply them at the root level")
  else if ruleID = "SEC002" then
    ("High", "Endpoint has no security requirements defined",
      "Apply authentication using global or operation-level security")
  else if ruleID = "SEC003" then
    ("High", "Insecure HTTP protocol allowed in server URL",
      "Use HTTPS instead of HTTP for all server URLs")
  else if ruleID = "SEC004" then
    ("Medium", "No rate limiting headers defined in responses",
      "Include X-RateLimit-* headers to indicate API rate limits")
  else if ruleID = "SEC005" then
    ("Medium", "Sensitive data exposed in query parameter",
      "Avoid using sensitive data in query parameters; use headers or request body instead")
  else if ruleID = "SEC006" then
    ("Medium", "Missing standard error response definitions (401, 403, 429)",
      "Define 401, 403, and 429 error responses for better security and API resilience")
  else if ruleID = "SEC007" then
    ("Low", "No contact or security contact information provided",
      "Add info.contact or x-security-contact for vulnerability reporting")
  else if ruleID = "SEC008" then
    ("Low", "Deprecated endpoint does not specify sunset or removal information",
      "Add sunset or deprecation timeline information for deprecated endpoints")
  else if ruleID = "SEC009" then
    ("High", "Server URL contains wildcard or templated host without variable constraints",
      "Avoid wildcards or define server variables with enum constraints")
  else
    ("Medium", "Input parameter lacks validation constraints",
      "Define input validation such as min/max, pattern, or enum")

/-! ## Sample inputs -/

/-- A sample finding, as CheckSEC003HTTPAllowed creates it. -/
def sampleFinding : Finding :=
  CreateFinding "SEC003" "High" "Insecure HTTP protocol allowed in server URL"
    "servers[0].url" "Use HTTPS instead of HTTP for all server URLs"

/-- A sample finding list: two rule ids, one of them twice, and one severity string
outside the four known ones. -/
def sampleFindings : List Finding :=
  [CreateFinding "SEC001" "Critical" "No global security definition found in OpenAPI specification"
     "root" "Define global security schemes and apply them at the root level",
   CreateFinding "SEC002" "High" "Endpoint has no security requirements defined"
     "paths./users.get.security" "Apply authentication using global or operation-level security",
   CreateFinding "SEC002" "High" "Endpoint has no security requirements defined"
     "paths./users.post.security" "Apply authentication using global or operation-level security",
   CreateFinding "X" "Info" "d" "l" "r"]

/-- The document of scenario A: openapi 3.0.0 and an empty paths mapping. -/
def scenarioA : OpenAPISpec :=
  some [("openapi", Value.str "3.0.0"), ("paths", Value.map [])]

/-- A version-3 document with two operations and no security anywhere. -/
def twoOperationsDoc : OpenAPISpec :=
  some [("openapi", Value.str "3.0.0"),
        ("paths", Value.map [("/users", Value.map [("get", Value.map []), ("post", Value.map [])])])]

/-- The mapping without the entry of the given key. -/
def eraseKey (key : String) : Object → Object
  | [] => []
  | (k, v) :: rest => if k = key then eraseKey key rest else (k, v) :: eraseKey key rest

/-- The entries of a version-3 document with one operation whose top-level security
key holds null (the YAML line security: with no value). -/
def nullSecurityEntries : Object :=
  [("openapi", Value.str "3.0.0"),
   ("info", Value.map [("contact", Value.map [("email", Value.str "sec@example.com")])]),
   ("security", Value.null),
   ("paths", Value.map [("/users", Value.map [("get", Value.map [])])])]

/-- A document carrying both version keys, with an http scheme list, a wildcard http
server, a templated server whose variable has no enum, and an operation whose
parameter schema and request body schema have no validation key. -/
def mixedDoc : OpenAPISpec :=
  some [("openapi", Value.str "3.0.0"),
        ("swagger", Value.str "2.0"),
        ("schemes", Value.seq [Value.str "http"]),
        ("servers", Value.seq [
          Value.map [("url", Value.str "http://*.example.com")],
          Value.map [("url", Value.str "https://\x7benv\x7d.example.com"),
                     ("variables", Value.map [("env", Value.map [("default", Value.str "prod")])])]]),
        ("paths", Value.map [("/users", Value.map [("post", Value.map [
          ("parameters", Value.seq [Value.map [("name", Value.str "id"), ("in", Value.str "query"),
            ("schema", Value.map [("type", Value.str "string")])]]),
          ("requestBody", Value.map [("content", Value.map [("application/json",
            Value.map [("schema", Value.map [("type", Value.str "object")])])])])])])])]

/-- The SEC002 finding of the get operation of twoOperationsDoc. -/
def sec002Get : Finding :=
  CreateFinding "SEC002" "High" "Endpoint has no security requirements defined"
    "paths./users.get.security" "Apply authentication using global or operation-level security"

/-- The SEC002 finding of the post operation of twoOperationsDoc. -/
def sec002Post : Finding :=
  CreateFinding "SEC002" "High" "Endpoint has no security requirements defined"
    "paths./users.post.security" "Apply authentication using global or operation-level security"

/-! ## validator.go -/

/-- ValidateSpec (validator.go).  The result ok stands for the nil error and error msg
for errors.New(msg). -/
def ValidateSpec (spec : OpenAPISpec) : Except String Unit :=
  match spec with
  | none => Except.error "invalid OpenAPI structure"
  | some _ =>
    if !(mapIndex spec "paths").isSome then
      Except.error "missing 'paths' in OpenAPI spec"
    else
      match mapIndex spec "openapi" with
      | some openapi =>
        match openapi with
        | Value.str s =>
          if s = "" then Except.error "invalid OpenAPI version" else Except.ok ()
        | _ => Except.error "invalid OpenAPI version"
      | none =>
        match mapIndex spec "swagger" with
        | some swagger =>
          if !eqString (some swagger) "2.0" then Except.error "unsupported Swagger version"
          else Except.ok ()
        | none => Except.error "unsupported OpenAPI version"

/-! ## Reference definitions taken from the specification -/

/-- The running-clamp calculator in the words of the specification: start at 100 and,
for each finding in order, subtract its severity penalty and clamp the running total
at a floor of 0 after every step. -/
def runningClampScore (findings : List Finding) : Int :=
  findings.foldl (fun score finding => max 0 (score - penalty finding.Severity)) 100

/-- The operations that the method entries of one path item contribute, in
enumeration order: one for each method key that does not begin with x- and whose
value is a mapping. -/
def methodOperations (path : String) (methods : Object) : List (String × String × Object) :=
  methods.flatMap fun methodEntry =>
    if stringsHasPrefix methodEntry.1 "x-" then []
    else
      match asMap (some methodEntry.2) with
      | none => []
      | some details => [(path, methodEntry.1, details)]

/-- The operations that the entries of the paths mapping contribute, in enumeration
order: those of every path key whose value is a mapping. -/
def pathOperations (paths : Object) : List (String × String × Object) :=
  paths.flatMap fun pathEntry =>
    match asMap (some pathEntry.2) with
    | none => []
    | some methods => methodOperations pathEntry.1 methods

/-- The operations of a document, in enumeration order: the triples of a path key
under paths whose value is a mapping, a method key of that mapping that does not
begin with x- and whose value is a mapping, and that mapping. -/
def operations (spec : OpenAPISpec) : List (String × String × Object) :=
  pathOperations (mapRange (asMap (mapIndex spec "paths")))

/-- The finding SEC002 reports for the operation (path, method). -/
def sec002Finding (path method : String) : Finding :=
  CreateFinding "SEC002" "High" "Endpoint has no security requirements defined"
    ("paths." ++ path ++ "." ++ method ++ ".security")
    "Apply authentication using global or operation-level security"

/-- The document has no global security requirement: the top-level security key is
absent or holds null. -/
def hasNoGlobalSecurity (spec : OpenAPISpec) : Bool :=
  isNil (mapIndex spec "security")

/-- The operation declares no operation-level security: its mapping has no security
key. -/
def hasNoOperationSecurity (details : Object) : Bool :=
  (lookupKey details "security").isNone

/-- The finding SEC003 reports for the server at the given index. -/
def sec003Finding (index : Nat) : Finding :=
  CreateFinding "SEC003" "High" "Insecure HTTP protocol allowed in server URL"
    ("servers[" ++ toString index ++ "].url")
    "Use HTTPS instead of HTTP for all server URLs"

/-- The entry of the servers sequence is a mapping with a string url that begins with
http://. -/
def isHttpServer (s : Value) : Bool :=
  match s with
  | Value.map server =>
    match lookupKey server "url" with
    | some (Value.str url) => stringsHasPrefix url "http://"
    | _ => false
  | _ => false

/-- The finding SEC005 reports for the parameter of the given name in the operation
(path, method). -/
def sec005Finding (path method name : String) : Finding :=
  CreateFinding "SEC005" "Medium" "Sensitive data exposed in query parameter"
    ("paths." ++ path ++ "." ++ method ++ ".parameters." ++ name)
    "Avoid using sensitive data in query parameters; use headers or request body instead"

/-- The name of a parameter: the string under its name key, and the empty string when
the parameter is no mapping or its name is no string. -/
def parameterName (p : Value) : String :=
  match p with
  | Value.map param => asString (lookupKey param "name")
  | _ => ""

/-- The parameter is a mapping with in equal to query whose lower-cased name contains
at least one of the sensitive terms. -/
def isSensitiveQueryParameter (p : Value) : Bool :=
  match p with
  | Value.map param =>
    eqString (lookupKey param "in") "query" &&
      sensitive.any fun term => stringsContains (stringsToLower (parameterName p)) term
  | _ => false

/-- The finding SEC008 reports for the operation (path, method). -/
def sec008Finding (path method : String) : Finding :=
  CreateFinding "SEC008" "Low"
    "Deprecated endpoint does not specify sunset or removal information"
    ("paths." ++ path ++ "." ++ method)
    "Add sunset or deprecation timeline information for deprecated endpoints"

/-- The operation has deprecated equal to the boolean true and declares none of the
keys sunset, x-sunset and x-deprecation-date. -/
def isDeprecatedWithoutSunset (details : Object) : Bool :=
  (match lookupKey details "deprecated" with
    | some (Value.bool true) => true
    | _ => false) &&
  (lookupKey details "sunset").isNone &&
  (lookupKey details "x-sunset").isNone &&
  (lookupKey details "x-deprecation-date").isNone

/-- The finding SEC009 reports at the url of the server at the given index. -/
def sec009UrlFinding (index : Nat) : Finding :=
  CreateFinding "SEC009" "High"
    "Server URL contains wildcard or templated host without variable constraints"
    ("servers[" ++ toString index ++ "].url")
    "Avoid wildcards or define server variables with enum constraints"

/-- The finding SEC009 reports at a variable of the server at the given index. -/
def sec009VariableFinding (index : Nat) (name : String) : Finding :=
  CreateFinding "SEC009" "High"
    "Server URL contains templated host without enum constraints"
    ("servers[" ++ toString index ++ "].variables." ++ name)
    "Constrain server variables using enum values"

/-- The url contains the wildcard character. -/
def hasWildcard (url : String) : Bool :=
  stringsContains url "*"

/-- The url contains a template, recognised by an opening and a closing brace. -/
def hasTemplate (url : String) : Bool :=
  stringsContains url "\x7b" && stringsContains url "\x7d"

/-- The server variable is a mapping that lacks an enum constraint. -/
def isUnconstrainedVariable (v : Value) : Bool :=
  match v with
  | Value.map variableMap => (lookupKey variableMap "enum").isNone
  | _ => false

/-- What SEC009 reports for one entry of the servers sequence.  A mapping whose url
has a wildcard or a template and which has no variables object gives the url finding;
a mapping whose url has a template and which has a variables object gives the
variable finding of its first unconstrained variable, if there is one; everything
else, a wildcard url without template but with a variables object included, gives
nothing. -/
def sec009Expected (index : Nat) (s : Value) : List Finding :=
  match s with
  | Value.map server =>
    let url := asString (lookupKey server "url")
    if hasWildcard url || hasTemplate url then
      match asMap (lookupKey server "variables") with
      | none => [sec009UrlFinding index]
      | some vars =>
        if hasTemplate url then
          match vars.find? (fun varEntry => isUnconstrainedVariable varEntry.2) with
          | some varEntry => [sec009VariableFinding index varEntry.1]
          | none => []
        else []
    else []
  | _ => []

/-- A document with the one path /users, the method get and no security anywhere. -/
def usersGetDoc : OpenAPISpec :=
  some [("openapi", Value.str "3.0.0"),
        ("paths", Value.map [("/users", Value.map [("get", Value.map [])])])]

/-- The version-3 document of scenario C, with the one server
http://api.example.com. -/
def scenarioC : OpenAPISpec :=
  some [("openapi", Value.str "3.0.0"),
        ("servers", Value.seq [Value.map [("url", Value.str "http://api.example.com")]]),
        ("paths", Value.map [])]

/-- A document whose one operation has the one parameter of the given name and
location. -/
def oneParameterDoc (name location : String) : OpenAPISpec :=
  some [("openapi", Value.str "3.0.0"),
        ("paths", Value.map [("/users", Value.map [("get", Value.map [
          ("parameters", Value.seq [Value.map [("name", Value.str name),
            ("in", Value.str location)]])])])])]

/-- A version-3 document whose one server has a wildcard url without template and a
variables object with a variable that has no enum. -/
def wildcardWithVariablesDoc : OpenAPISpec :=
  some [("openapi", Value.str "3.0.0"),
        ("servers", Value.seq [Value.map [("url", Value.str "https://*.example.com"),
          ("variables", Value.map [("env", Value.map [("default", Value.str "prod")])])]]),
        ("paths", Value.map [])]

/-! ## Documents with one operation or one parameter singled out -/

/-- The assignment m[key] = v on a non-nil map: the value of an existing key is
replaced, a new key is enumerated last. -/
def setKey (key : String) (v : Value) : Object → Object
  | [] => [(key, v)]
  | (k, w) :: rest => if k = key then (k, v) :: rest else (k, w) :: setKey key v rest

/-- A document with a hole in the place of one operation: the top-level entries
before and after the paths entry, the entries of paths before and after one path
item, the key of that path item, its entries before and after one method entry, and
the key of that method entry. -/
structure OperationContext where
  topBefore : Object
  topAfter : Object
  pathsBefore : Object
  pathsAfter : Object
  path : String
  methodsBefore : Object
  methodsAfter : Object
  method : String

/-- The document of the context whose singled-out operation is the given mapping. -/
def OperationContext.withDetails (c : OperationContext) (details : Object) : OpenAPISpec :=
  some (c.topBefore ++
    ("paths", Value.map (c.pathsBefore ++
      (c.path, Value.map (c.methodsBefore ++
        (c.method, Value.map details) :: c.methodsAfter)) :: c.pathsAfter)) :: c.topAfter)

/-- The paths entry of the context is the one an index expression finds, and the
method key of the singled-out operation is no extension key. -/
def OperationContext.Valid (c : OperationContext) : Prop :=
  (lookupKey c.topBefore "paths").isNone = true ∧ stringsHasPrefix c.method "x-" = false

/-- The operations enumerated before the singled-out operation. -/
def OperationContext.operationsBefore (c : OperationContext) :
    List (String × String × Object) :=
  pathOperations c.pathsBefore ++ methodOperations c.path c.methodsBefore

/-- The operations enumerated after the singled-out operation. -/
def OperationContext.operationsAfter (c : OperationContext) :
    List (String × String × Object) :=
  methodOperations c.path c.methodsAfter ++ pathOperations c.pathsAfter

/-- The document of scenario D without the operation: the context of the operation
/legacy get. -/
def scenarioDContext : OperationContext :=
  { topBefore := [("openapi", Value.str "3.0.0")], topAfter := [],
    pathsBefore := [("/users", Value.map [("get", Value.map [("deprecated", Value.bool true)])])],
    pathsAfter := [],
    path := "/legacy",
    methodsBefore := [],
    methodsAfter := [("post", Value.map [("deprecated", Value.bool true)])],
    method := "get" }

/-! ## Removing extension keys from path items -/

/-- The path item without its keys that begin with x-; a value that is no mapping is
left as it is. -/
def stripExtensionKeys (item : Value) : Value :=
  match item with
  | Value.map methods =>
    Value.map (methods.filter fun methodEntry => !stringsHasPrefix methodEntry.1 "x-")
  | v => v

/-- The value of the paths key with every path item stripped of its extension keys. -/
def stripPaths (v : Value) : Value :=
  match v with
  | Value.map paths =>
    Value.map (paths.map fun pathEntry => (pathEntry.1, stripExtensionKeys pathEntry.2))
  | w => w

/-- A top-level entry, with its value stripped when its key is paths. -/
def stripPathsEntry : String × Value → String × Value
  | (k, v) => if k = "paths" then (k, stripPaths v) else (k, v)

/-- The document in which every path-item mapping under paths has lost all its keys
that begin with x-. -/
def removeExtensionMethods (spec : OpenAPISpec) : OpenAPISpec :=
  match spec with
  | none => none
  | some entries => some (entries.map stripPathsEntry)

/-- The location of the finding begins with paths.path.method. -/
def locatedAtOperation (f : Finding) (path method : String) : Prop :=
  stringsHasPrefix f.Location ("paths." ++ path ++ "." ++ method) = true

/-- The findings of the six rules that iterate the operations of a document. -/
def pathRuleFindings (d : OpenAPISpec) : List Finding :=
  CheckSEC002UnprotectedEndpoints d ++ CheckSEC004NoRateLimitHeaders d ++
    CheckSEC005SensitiveQueryParams d ++ CheckSEC006MissingErrorResponses d ++
    CheckSEC008DeprecatedWithoutSunset d ++ CheckSEC010NoInputValidation d

/-- An operation context together with a hole in the place of one entry of the
parameters sequence of the singled-out operation: the entries of the operation before
and after its parameters entry, and the parameters before and after the singled-out
one. -/
structure ParameterContext where
  operation : OperationContext
  detailsBefore : Object
  detailsAfter : Object
  parametersBefore : List Value
  parametersAfter : List Value

/-- The operation context is valid and the parameters entry of the context is the one
an index expression finds. -/
def ParameterContext.Valid (c : ParameterContext) : Prop :=
  c.operation.Valid ∧ (lookupKey c.detailsBefore "parameters").isNone = true

/-- The pairs of rule id and location of a finding list. -/
def findingPairs (findings : List Finding) : List (String × String) :=
  findings.map fun f => (f.RuleID, f.Location)

/-- A version-3 document with one server whose url has two templates and whose
variables object is enumerated in the given order. -/
def templatedServerDoc (vars : Object) : OpenAPISpec :=
  some [("openapi", Value.str "3.0.0"),
        ("servers", Value.seq [Value.map [
          ("url", Value.str "https://\x7bregion\x7d.\x7benv\x7d.example.com"),
          ("variables", Value.map vars)]]),
        ("paths", Value.map [])]

/-- The variables region and env, neither with an enum, enumerated region first. -/
def regionThenEnv : Object :=
  [("region", Value.map [("default", Value.str "eu")]),
   ("env", Value.map [("default", Value.str "prod")])]

/-- The same variables object enumerated env first. -/
def envThenRegion : Object :=
  [("env", Value.map [("default", Value.str "prod")]),
   ("region", Value.map [("default", Value.str "eu")])]

theorem penalty_nonneg (s : String) : 0 ≤ penalty s := by
  unfold penalty; split_ifs <;> omega

theorem penalty_le (s : String) : penalty s ≤ 20 := by
  unfold penalty; split_ifs <;> omega

theorem totalPenalty_nil : totalPenalty [] = 0 := rfl

theorem totalPenalty_cons (f : Finding) (fs : List Finding) :
    totalPenalty (f :: fs) = penalty f.Severity + totalPenalty fs := by
  simp [totalPenalty]

theorem totalPenalty_append (xs ys : List Finding) :
    totalPenalty (xs ++ ys) = totalPenalty xs + totalPenalty ys := by
  simp [totalPenalty]

theorem totalPenalty_nonneg (fs : List Finding) : 0 ≤ totalPenalty fs := by
  induction fs with
  | nil => simp [totalPenalty]
  | cons f fs ih =>
    rw [totalPenalty_cons]
    have := penalty_nonneg f.Severity
    omega

theorem totalPenalty_le (fs : List Finding) : totalPenalty fs ≤ 20 * (fs.length : Int) := by
  induction fs with
  | nil => simp [totalPenalty]
  | cons f fs ih =>
    rw [totalPenalty_cons]
    have := penalty_le f.Severity
    simp only [List.length_cons, Nat.cast_add, Nat.cast_one]
    omega

theorem wrapInt64_of_range (x : Int) (h1 : -9223372036854775808 ≤ x)
    (h2 : x < 9223372036854775808) : wrapInt64 x = x := by
  unfold wrapInt64
  omega

/-- As long as the list is short enough for the running total to stay in range,
the loop of CalculateScore computes the start value minus the penalties. -/
theorem foldl_scoreStep (fs : List Finding) (s : Int)
    (hlo : -9223372036854775808 ≤ s - 20 * (fs.length : Int))
    (hhi : s < 9223372036854775808) :
    fs.foldl scoreStep s = s - totalPenalty fs := by
  induction fs generalizing s with
  | nil => simp [totalPenalty]
  | cons f fs ih =>
    have hp0 := penalty_nonneg f.Severity
    have hp1 := penalty_le f.Severity
    simp only [List.length_cons, Nat.cast_add, Nat.cast_one] at hlo
    have hstep : scoreStep s f = s - penalty f.Severity := by
      unfold scoreStep
      apply wrapInt64_of_range <;> omega
    rw [List.foldl_cons, hstep, ih _ (by omega) (by omega), totalPenalty_cons]
    omega

theorem foldl_scoreStep_100 (fs : List Finding) (h : fs.length ≤ maxFindings) :
    fs.foldl scoreStep 100 = 100 - totalPenalty fs := by
  apply foldl_scoreStep
  · have : (fs.length : Int) ≤ 230584300921369395 := by
      have := h; unfold maxFindings at this; exact_mod_cast this
    omega
  · omega

theorem CalculateScore_eq (fs : List Finding) (h : fs.length ≤ maxFindings) :
    CalculateScore fs = max 0 (100 - totalPenalty fs) := by
  unfold CalculateScore
  simp only [foldl_scoreStep_100 fs h]
  split_ifs with hneg <;> omega

/-! ### Lemmas on grouping -/

theorem extractLocations_foldl (items : List Finding) (acc : List String) :
    items.foldl (fun locations item => locations ++ [item.Location]) acc
      = acc ++ items.map (fun f => f.Location) := by
  induction items generalizing acc with
  | nil => simp
  | cons x xs ih => simp [ih]

theorem extractLocations_eq_map (items : List Finding) :
    extractLocations items = items.map (fun f => f.Location) := by
  simp [extractLocations, extractLocations_foldl]

theorem groupInsert_keys (m : GroupMap) (f : Finding) :
    (groupInsert m f).map Prod.fst
      = if f.RuleID ∈ m.map Prod.fst then m.map Prod.fst else m.map Prod.fst ++ [f.RuleID] := by
  induction m with
  | nil => simp [groupInsert]
  | cons e rest ih =>
    obtain ⟨k, items⟩ := e
    by_cases hk : k = f.RuleID
    · simp [groupInsert, hk]
    · have hk2 : ¬ f.RuleID = k := fun h => hk h.symm
      simp only [groupInsert, hk, if_false, List.map_cons, ih, List.mem_cons, hk2, false_or]
      split_ifs <;> simp

theorem groupLookup_groupInsert (m : GroupMap) (f : Finding) (key : String) :
    groupLookup (groupInsert m f) key
      = if key = f.RuleID then some ((groupLookup m key).getD [] ++ [f])
        else groupLookup m key := by
  induction m with
  | nil =>
    by_cases h : key = f.RuleID
    · simp [groupInsert, groupLookup, h]
    · have h2 : ¬ f.RuleID = key := fun e => h e.symm
      simp [groupInsert, groupLookup, h, h2]
  | cons e rest ih =>
    obtain ⟨k, items⟩ := e
    by_cases hk : k = f.RuleID
    · by_cases h : key = f.RuleID
      · simp [groupInsert, groupLookup, hk, h]
      · have h2 : ¬ f.RuleID = key := fun e => h e.symm
        simp [groupInsert, groupLookup, hk, h, h2]
    · by_cases h : key = f.RuleID
      · subst h
        simp [groupInsert, groupLookup, hk, ih]
      · by_cases h4 : k = key
        · simp [groupInsert, groupLookup, hk, h, h4]
        · simp [groupInsert, groupLookup, hk, h, h4, ih]

theorem groupLookup_eq_none (m : GroupMap) (key : String) (h : key ∉ m.map Prod.fst) :
    groupLookup m key = none := by
  induction m with
  | nil => rfl
  | cons e rest ih =>
    obtain ⟨k, items⟩ := e
    simp only [List.map_cons, List.mem_cons, not_or] at h
    have hk : ¬ k = key := fun e => h.1 e.symm
    simp [groupLookup, hk, ih h.2]

theorem mem_iff_groupLookup (m : GroupMap) (hnd : (m.map Prod.fst).Nodup)
    (key : String) (items : List Finding) :
    (key, items) ∈ m ↔ groupLookup m key = some items := by
  induction m with
  | nil => simp [groupLookup]
  | cons e rest ih =>
    obtain ⟨k, its⟩ := e
    simp only [List.map_cons, List.nodup_cons] at hnd
    by_cases hk : k = key
    · subst hk
      have hnone : ∀ its2, (k, its2) ∉ rest := fun its2 hmem =>
        hnd.1 (List.mem_map_of_mem Prod.fst hmem)
      simp only [List.mem_cons, Prod.mk.injEq, true_and, groupLookup, if_true, Option.some.injEq,
        hnone, or_false]
      exact eq_comm
    · have hk2 : ¬ key = k := fun e => hk e.symm
      simp [groupLookup, hk, hk2, ih hnd.2]

theorem GroupInv_nil : GroupInv [] [] :=
  ⟨by simp, by simp, by simp⟩

theorem GroupInv_step (fs : List Finding) (m : GroupMap) (f : Finding) (h : GroupInv fs m) :
    GroupInv (fs ++ [f]) (groupInsert m f) := by
  refine ⟨?_, ?_, ?_⟩
  · rw [groupInsert_keys]
    split_ifs with hmem
    · exact h.nodup
    · exact List.Nodup.append h.nodup (by simp) (by simpa using hmem)
  · intro key
    rw [groupInsert_keys]
    split_ifs with hmem
    · have := h.keys key
      have h2 := (h.keys f.RuleID).1 hmem
      simp only [List.map_append, List.mem_append, List.map_cons, List.map_nil,
        List.mem_singleton]
      constructor
      · intro hk; exact Or.inl (this.1 hk)
      · rintro (hk | hk)
        · exact this.2 hk
        · rw [hk]; exact hmem
    · have := h.keys key
      simp only [List.map_append, List.mem_append, List.map_cons, List.map_nil,
        List.mem_singleton, this]
  · intro key hkey
    rw [groupLookup_groupInsert]
    by_cases hk : key = f.RuleID
    · have hold : (groupLookup m key).getD [] = fs.filter (fun g => decide (g.RuleID = key)) := by
        by_cases hin : key ∈ m.map Prod.fst
        · rw [h.items key hin]; rfl
        · rw [groupLookup_eq_none m key hin]
          have hnot : key ∉ fs.map (fun f => f.RuleID) := fun hc => hin ((h.keys key).2 hc)
          symm
          rw [Option.getD_none, List.filter_eq_nil_iff]
          intro g hg hgk
          exact hnot (List.mem_map.2 ⟨g, hg, by simpa using hgk⟩)
      subst hk
      simp [hold]
    · have hk2 : ¬ f.RuleID = key := fun e => hk e.symm
      have hin : key ∈ m.map Prod.fst := by
        rw [groupInsert_keys] at hkey
        split_ifs at hkey with hmem
        · exact hkey
        · rcases List.mem_append.1 hkey with h1 | h1
          · exact h1
          · exact absurd (List.mem_singleton.1 h1) hk
      simp [hk, hk2, h.items key hin]

theorem GroupInv_foldl (fs pre : List Finding) (m : GroupMap) (h : GroupInv pre m) :
    GroupInv (pre ++ fs) (fs.foldl groupInsert m) := by
  induction fs generalizing pre m with
  | nil => simpa using h
  | cons f fs ih =>
    have := ih (pre ++ [f]) (groupInsert m f) (GroupInv_step pre m f h)
    simpa using this

theorem GroupInv_buildGroupMap (fs : List Finding) : GroupInv fs (buildGroupMap fs) := by
  have := GroupInv_foldl fs [] [] GroupInv_nil
  simpa [buildGroupMap] using this

theorem GroupInv_mem {fs : List Finding} {m : GroupMap} (h : GroupInv fs m)
    {key : String} {items : List Finding} (hmem : (key, items) ∈ m) :
    key ∈ fs.map (fun f => f.RuleID) ∧
      items = fs.filter (fun f => decide (f.RuleID = key)) := by
  have hkey : key ∈ m.map Prod.fst := List.mem_map.2 ⟨(key, items), hmem, rfl⟩
  refine ⟨(h.keys key).1 hkey, ?_⟩
  have h1 := (mem_iff_groupLookup m h.nodup key items).1 hmem
  rw [h.items key hkey] at h1
  exact (Option.some.inj h1).symm

theorem filter_ruleID_ne_nil {fs : List Finding} {key : String}
    (h : key ∈ fs.map (fun f => f.RuleID)) :
    fs.filter (fun f => decide (f.RuleID = key)) ≠ [] := by
  obtain ⟨g, hg, hgk⟩ := List.mem_map.1 h
  intro hnil
  rw [List.filter_eq_nil_iff] at hnil
  exact hnil g hg (by simpa using hgk)

theorem find?_of_filter_eq_cons {p : Finding → Bool} {fs : List Finding} {first : Finding}
    {rest : List Finding} (h : fs.filter p = first :: rest) : fs.find? p = some first := by
  induction fs with
  | nil => simp at h
  | cons x xs ih =>
    by_cases hx : p x = true
    · simp only [List.filter_cons, hx, if_true, List.cons.injEq] at h
      rw [← h.1]
      simp [List.find?_cons, hx]
    · simp only [List.filter_cons, hx] at h
      simp only [List.find?_cons]
      simp only [Bool.not_eq_true] at hx
      rw [hx]
      exact ih h

theorem GroupInv_perm {fs : List Finding} {m es : GroupMap} (h : GroupInv fs m)
    (hp : es.Perm m) : GroupInv fs es := by
  have hk : (es.map Prod.fst).Perm (m.map Prod.fst) := hp.map Prod.fst
  have hnd : (es.map Prod.fst).Nodup := hk.nodup_iff.2 h.nodup
  refine ⟨hnd, fun key => ?_, fun key hkey => ?_⟩
  · rw [hk.mem_iff]; exact h.keys key
  · have hkey2 : key ∈ m.map Prod.fst := hk.mem_iff.1 hkey
    have h1 := h.items key hkey2
    rw [← mem_iff_groupLookup m h.nodup] at h1
    rw [← mem_iff_groupLookup es hnd]
    exact hp.mem_iff.2 h1

/-- The second loop succeeds when every enumerated slice is non-empty, and each
result entry is built from one enumerated entry, in order. -/
theorem collectGroups_some (es : GroupMap) (h : ∀ e ∈ es, e.2 ≠ []) :
    ∃ gs, collectGroups es = some gs ∧
      gs.map (fun g => g.RuleID) = es.map Prod.fst ∧
      gs.map (fun g => g.Count) = es.map (fun e => e.2.length) ∧
      ∀ g ∈ gs, ∃ first rest, (g.RuleID, first :: rest) ∈ es ∧
        g.Count = (first :: rest).length ∧
        g.Locations = (first :: rest).map (fun f => f.Location) ∧
        g.Severity = first.Severity ∧ g.Description = first.Description ∧
        g.Recommendation = first.Recommendation := by
  induction es with
  | nil => exact ⟨[], rfl, rfl, rfl, by simp⟩
  | cons e rest ih =>
    obtain ⟨k, items⟩ := e
    obtain ⟨gs, hgs, hids, hcounts, hall⟩ := ih (fun e he => h e (List.mem_cons_of_mem _ he))
    cases items with
    | nil => exact absurd rfl (h (k, []) (List.mem_cons_self _ _))
    | cons first tl =>
      refine ⟨{ RuleID := k, Severity := first.Severity, Count := (first :: tl).length,
                Locations := extractLocations (first :: tl),
                Description := first.Description,
                Recommendation := first.Recommendation } :: gs,
              by simp [collectGroups, groupEntry, hgs], ?_, ?_, ?_⟩
      · simp [hids]
      · simp [hcounts]
      · intro g hg
        rcases List.mem_cons.1 hg with rfl | hg
        · exact ⟨first, tl, List.mem_cons_self _ _, rfl, extractLocations_eq_map _, rfl, rfl, rfl⟩
        · obtain ⟨f1, r1, hmem, hrest⟩ := hall g hg
          exact ⟨f1, r1, List.mem_cons_of_mem _ hmem, hrest⟩

theorem GroupInv_items_ne_nil {fs : List Finding} {m : GroupMap} (h : GroupInv fs m) :
    ∀ e ∈ m, e.2 ≠ [] := by
  rintro ⟨key, items⟩ he
  obtain ⟨hk, hitems⟩ := GroupInv_mem h he
  simp only [hitems]
  exact filter_ruleID_ne_nil hk

theorem groupInsert_itemCount (m : GroupMap) (f : Finding) :
    ((groupInsert m f).map (fun e => e.2.length)).sum
      = (m.map (fun e => e.2.length)).sum + 1 := by
  induction m with
  | nil => simp [groupInsert]
  | cons e rest ih =>
    obtain ⟨k, items⟩ := e
    by_cases hk : k = f.RuleID
    · simp [groupInsert, hk]; omega
    · simp [groupInsert, hk, ih]; omega

theorem foldl_groupInsert_itemCount (fs : List Finding) (m : GroupMap) :
    ((fs.foldl groupInsert m).map (fun e => e.2.length)).sum
      = (m.map (fun e => e.2.length)).sum + fs.length := by
  induction fs generalizing m with
  | nil => simp
  | cons f fs ih => simp [ih, groupInsert_itemCount]; omega

theorem GroupInv_length {fs : List Finding} {m : GroupMap} (h : GroupInv fs m) :
    m.length = (fs.map (fun f => f.RuleID)).dedup.length := by
  have hp : (m.map Prod.fst).Perm (fs.map (fun f => f.RuleID)).dedup := by
    apply (List.perm_ext_iff_of_nodup h.nodup (List.nodup_dedup _)).2
    intro key
    rw [List.mem_dedup]
    exact h.keys key
  simpa using hp.length_eq

theorem dedup_length_le (l : List String) : l.dedup.length ≤ l.length :=
  (List.dedup_sublist l).length_le

theorem dedup_length_eq_iff (l : List String) : l.dedup.length = l.length ↔ l.Nodup := by
  constructor
  · intro h
    have := (List.dedup_sublist l).eq_of_length h
    exact List.dedup_eq_self.1 this
  · intro h
    rw [List.dedup_eq_self.2 h]

/-! ### Claims on the score calculator -/

/-- C1: for every finding list (of a length a slice can have), CalculateScore is
max(0, 100 - P), where P is the sum of the penalties of the findings: 20 for
Critical, 10 for High, 5 for Medium, 2 for Low and 0 for any other severity. -/
theorem CalculateScore_eq_max_sub_penalties (fs : List Finding)
    (hlen : fs.length ≤ maxFindings) :
    CalculateScore fs = max 0 (100 - (fs.map (fun f => penalty f.Severity)).sum) ∧
      penalty "Critical" = 20 ∧ penalty "High" = 10 ∧ penalty "Medium" = 5 ∧
      penalty "Low" = 2 ∧
      ∀ s, s ≠ "Critical" → s ≠ "High" → s ≠ "Medium" → s ≠ "Low" → penalty s = 0 := by
  refine ⟨CalculateScore_eq fs hlen, by decide, by decide, by decide, by decide, ?_⟩
  intro s h1 h2 h3 h4
  simp [penalty, h1, h2, h3, h4]

theorem CalculateScore_eq_max_sub_penalties_witness :
    sampleFindings.length ≤ maxFindings ∧
      (CalculateScore sampleFindings
          = max 0 (100 - (sampleFindings.map (fun f => penalty f.Severity)).sum) ∧
        penalty "Critical" = 20 ∧ penalty "High" = 10 ∧ penalty "Medium" = 5 ∧
        penalty "Low" = 2 ∧
        ∀ s, s ≠ "Critical" → s ≠ "High" → s ≠ "Medium" → s ≠ "Low" → penalty s = 0) :=
  ⟨by decide, CalculateScore_eq_max_sub_penalties sampleFindings (by decide)⟩

/-- C2: for every finding list (of a length a slice can have, with any severity
strings), the score lies between 0 and 100. -/
theorem CalculateScore_range (fs : List Finding) (hlen : fs.length ≤ maxFindings) :
    0 ≤ CalculateScore fs ∧ CalculateScore fs ≤ 100 := by
  rw [CalculateScore_eq fs hlen]
  have := totalPenalty_nonneg fs
  omega

theorem CalculateScore_range_witness :
    sampleFindings.length ≤ maxFindings ∧
      (0 ≤ CalculateScore sampleFindings ∧ CalculateScore sampleFindings ≤ 100) :=
  ⟨by decide, CalculateScore_range sampleFindings (by decide)⟩

/-- C3: adding a finding never raises the score, whether it is appended at the end
or inserted at any position of the list. -/
theorem CalculateScore_add_finding_le (fs : List Finding) (f : Finding)
    (hlen : fs.length + 1 ≤ maxFindings) :
    CalculateScore (fs ++ [f]) ≤ CalculateScore fs ∧
      ∀ xs ys, fs = xs ++ ys → CalculateScore (xs ++ f :: ys) ≤ CalculateScore fs := by
  have hfs : fs.length ≤ maxFindings := by omega
  have hp := penalty_nonneg f.Severity
  constructor
  · rw [CalculateScore_eq fs hfs, CalculateScore_eq (fs ++ [f]) (by simpa using hlen),
      totalPenalty_append, totalPenalty_cons, totalPenalty_nil]
    omega
  · intro xs ys hsplit
    have hlen2 : (xs ++ f :: ys).length ≤ maxFindings := by
      have : fs.length = xs.length + ys.length := by rw [hsplit]; simp
      simp only [List.length_append, List.length_cons]
      omega
    rw [CalculateScore_eq fs hfs, CalculateScore_eq _ hlen2, hsplit, totalPenalty_append,
      totalPenalty_append, totalPenalty_cons]
    omega

theorem CalculateScore_add_finding_le_witness :
    sampleFindings.length + 1 ≤ maxFindings ∧
      (CalculateScore (sampleFindings ++ [sampleFinding]) ≤ CalculateScore sampleFindings ∧
        ∀ xs ys, sampleFindings = xs ++ ys →
          CalculateScore (xs ++ sampleFinding :: ys) ≤ CalculateScore sampleFindings) :=
  ⟨by decide, CalculateScore_add_finding_le sampleFindings sampleFinding (by decide)⟩

/-! ### Claims on the finding aggregator -/

/-- C4: for any enumeration order of the internal map, GroupFindings returns a list
with exactly one entry per distinct rule_id of the input and no other entry; the
entry of rule_id r counts the findings with rule_id r, lists their locations in
input order and copies severity, description and recommendation from the first
finding with rule_id r. -/
theorem GroupFindings_entries (rangeOrder : GroupMap → GroupMap)
    (horder : IsRangeOrder rangeOrder) (fs : List Finding) :
    ∃ gs, GroupFindings rangeOrder fs = some gs ∧
      (gs.map (fun g => g.RuleID)).Nodup ∧
      (∀ r, r ∈ gs.map (fun g => g.RuleID) ↔ r ∈ fs.map (fun f => f.RuleID)) ∧
      ∀ g ∈ gs,
        g.Count = (fs.filter (fun f => decide (f.RuleID = g.RuleID))).length ∧
        g.Locations = (fs.filter (fun f => decide (f.RuleID = g.RuleID))).map
          (fun f => f.Location) ∧
        ∃ first, fs.find? (fun f => decide (f.RuleID = g.RuleID)) = some first ∧
          g.Severity = first.Severity ∧ g.Description = first.Description ∧
          g.Recommendation = first.Recommendation := by
  have hinv := GroupInv_perm (GroupInv_buildGroupMap fs) (horder (buildGroupMap fs))
  obtain ⟨gs, hgs, hids, -, hall⟩ := collectGroups_some _ (GroupInv_items_ne_nil hinv)
  refine ⟨gs, hgs, ?_, ?_, ?_⟩
  · rw [hids]; exact hinv.nodup
  · intro r; rw [hids]; exact hinv.keys r
  · intro g hg
    obtain ⟨first, rest, hmem, hcount, hloc, hsev, hdesc, hrec⟩ := hall g hg
    obtain ⟨-, hitems⟩ := GroupInv_mem hinv hmem
    refine ⟨?_, ?_, first, ?_, hsev, hdesc, hrec⟩
    · rw [hcount, hitems]
    · rw [hloc, hitems]
    · exact find?_of_filter_eq_cons hitems.symm

/-- C5: for any enumeration order of the internal map, the count fields of the
entries returned by GroupFindings add up to the number of input findings. -/
theorem GroupFindings_count_sum (rangeOrder : GroupMap → GroupMap)
    (horder : IsRangeOrder rangeOrder) (fs : List Finding) :
    ∃ gs, GroupFindings rangeOrder fs = some gs ∧
      (gs.map (fun g => g.Count)).sum = fs.length := by
  have hp := horder (buildGroupMap fs)
  have hinv := GroupInv_perm (GroupInv_buildGroupMap fs) hp
  obtain ⟨gs, hgs, -, hcounts, -⟩ := collectGroups_some _ (GroupInv_items_ne_nil hinv)
  refine ⟨gs, hgs, ?_⟩
  rw [hcounts, (hp.map (fun e => e.2.length)).sum_eq]
  have := foldl_groupInsert_itemCount fs []
  simpa [buildGroupMap] using this

/-- C6: for any enumeration order of the internal map, GroupFindings returns at most
as many entries as there are input findings, and exactly as many if and only if the
rule_ids of the input findings are pairwise distinct. -/
theorem GroupFindings_length (rangeOrder : GroupMap → GroupMap)
    (horder : IsRangeOrder rangeOrder) (fs : List Finding) :
    ∃ gs, GroupFindings rangeOrder fs = some gs ∧
      gs.length ≤ fs.length ∧
      (gs.length = fs.length ↔ (fs.map (fun f => f.RuleID)).Pairwise (fun a b => a ≠ b)) := by
  have hinv := GroupInv_perm (GroupInv_buildGroupMap fs) (horder (buildGroupMap fs))
  obtain ⟨gs, hgs, hids, -, -⟩ := collectGroups_some _ (GroupInv_items_ne_nil hinv)
  have hlen : gs.length = (fs.map (fun f => f.RuleID)).dedup.length := by
    rw [← GroupInv_length hinv]
    have := congrArg List.length hids
    simpa using this
  refine ⟨gs, hgs, ?_, ?_⟩
  · rw [hlen]; simpa using dedup_length_le (fs.map (fun f => f.RuleID))
  · rw [hlen]
    have := dedup_length_eq_iff (fs.map (fun f => f.RuleID))
    simpa [List.Nodup] using this

theorem GroupFindings_entries_witness :
    IsRangeOrder List.reverse ∧
      ∃ gs, GroupFindings List.reverse sampleFindings = some gs ∧
        (gs.map (fun g => g.RuleID)).Nodup ∧
        (∀ r, r ∈ gs.map (fun g => g.RuleID) ↔ r ∈ sampleFindings.map (fun f => f.RuleID)) ∧
        ∀ g ∈ gs,
          g.Count = (sampleFindings.filter (fun f => decide (f.RuleID = g.RuleID))).length ∧
          g.Locations = (sampleFindings.filter (fun f => decide (f.RuleID = g.RuleID))).map
            (fun f => f.Location) ∧
          ∃ first, sampleFindings.find? (fun f => decide (f.RuleID = g.RuleID)) = some first ∧
            g.Severity = first.Severity ∧ g.Description = first.Description ∧
            g.Recommendation = first.Recommendation :=
  ⟨fun m => List.reverse_perm m,
    GroupFindings_entries List.reverse (fun m => List.reverse_perm m) sampleFindings⟩

theorem GroupFindings_count_sum_witness :
    IsRangeOrder List.reverse ∧
      ∃ gs, GroupFindings List.reverse sampleFindings = some gs ∧
        (gs.map (fun g => g.Count)).sum = sampleFindings.length :=
  ⟨fun m => List.reverse_perm m,
    GroupFindings_count_sum List.reverse (fun m => List.reverse_perm m) sampleFindings⟩

theorem GroupFindings_length_witness :
    IsRangeOrder List.reverse ∧
      ∃ gs, GroupFindings List.reverse sampleFindings = some gs ∧
        gs.length ≤ sampleFindings.length ∧
        (gs.length = sampleFindings.length ↔
          (sampleFindings.map (fun f => f.RuleID)).Pairwise (fun a b => a ≠ b)) :=
  ⟨fun m => List.reverse_perm m,
    GroupFindings_length List.reverse (fun m => List.reverse_perm m) sampleFindings⟩

/-! ### Lemmas on the analyzer -/

theorem Analyze_foldl (rs : List Rule) (d : OpenAPISpec) (acc : List Finding) :
    rs.foldl (fun findings rule => findings ++ rule d) acc
      = acc ++ (rs.map (fun r => r d)).flatten := by
  induction rs generalizing acc with
  | nil => simp
  | cons r rs ih => simp [ih]

theorem Analyze_eq_flatten (rs : List Rule) (d : OpenAPISpec) :
    (NewAnalyzer rs).Analyze d = (rs.map (fun r => r d)).flatten := by
  simp [Analyzer.Analyze, NewAnalyzer, Analyze_foldl]

theorem analyzeDefault_eq (d : OpenAPISpec) :
    analyzeDefault d =
      CheckSEC001NoGlobalSecurity d ++ (CheckSEC002UnprotectedEndpoints d ++
      (CheckSEC003HTTPAllowed d ++ (CheckSEC004NoRateLimitHeaders d ++
      (CheckSEC005SensitiveQueryParams d ++ (CheckSEC006MissingErrorResponses d ++
      (CheckSEC007MissingSecurityContact d ++ (CheckSEC008DeprecatedWithoutSunset d ++
      (CheckSEC009WildcardServerURL d ++ CheckSEC010NoInputValidation d)))))))) := by
  simp [analyzeDefault, Analyze_eq_flatten, DefaultRules]
/-! ### The template of each rule -/

theorem forEachOperation_forall (P : Finding → Prop) (spec : OpenAPISpec)
    (body : String → String → Object → List Finding)
    (h : ∀ path method details, ∀ f ∈ body path method details, P f) :
    ∀ f ∈ forEachOperation spec body, P f := by
  intro f hf
  unfold forEachOperation at hf
  obtain ⟨pathEntry, -, hf⟩ := List.mem_flatMap.1 hf
  split at hf
  · simp at hf
  · obtain ⟨methodEntry, -, hf⟩ := List.mem_flatMap.1 hf
    split_ifs at hf
    · simp at hf
    · split at hf
      · simp at hf
      · exact h _ _ _ f hf

theorem CheckSEC001_template (d : OpenAPISpec) :
    ∀ f ∈ CheckSEC001NoGlobalSecurity d,
      f.RuleID = "SEC001" ∧ f.Severity = "Critical" ∧
      f.Description = "No global security definition found in OpenAPI specification" ∧
      f.Recommendation =
        "Define global security schemes and apply them at the root level" := by
  intro f hf
  unfold CheckSEC001NoGlobalSecurity at hf
  simp only at hf
  split_ifs at hf
  all_goals first
    | exact absurd hf (List.not_mem_nil _)
    | (rw [List.mem_singleton] at hf; subst hf; exact ⟨rfl, rfl, rfl, rfl⟩)

theorem CheckSEC002_template (d : OpenAPISpec) :
    ∀ f ∈ CheckSEC002UnprotectedEndpoints d,
      f.RuleID = "SEC002" ∧ f.Severity = "High" ∧
      f.Description = "Endpoint has no security requirements defined" ∧
      f.Recommendation =
        "Apply authentication using global or operation-level security" := by
  unfold CheckSEC002UnprotectedEndpoints
  apply forEachOperation_forall
  intro path method details f hf
  simp only at hf
  split_ifs at hf
  all_goals first
    | exact absurd hf (List.not_mem_nil _)
    | (rw [List.mem_singleton] at hf; subst hf; exact ⟨rfl, rfl, rfl, rfl⟩)

theorem CheckSEC003_template (d : OpenAPISpec) :
    ∀ f ∈ CheckSEC003HTTPAllowed d,
      f.RuleID = "SEC003" ∧ f.Severity = "High" := by
  intro f hf
  unfold CheckSEC003HTTPAllowed at hf
  simp only at hf
  rcases List.mem_append.1 hf with hf | hf
  · split_ifs at hf
    · obtain ⟨indexed, -, hf⟩ := List.mem_flatMap.1 hf
      split at hf
      · simp at hf
      · split_ifs at hf
        · rw [List.mem_singleton] at hf
          subst hf
          exact ⟨rfl, rfl⟩
        · simp at hf
    · simp at hf
  · split_ifs at hf
    all_goals first
      | exact absurd hf (List.not_mem_nil _)
      | (rw [List.mem_singleton] at hf; subst hf; exact ⟨rfl, rfl⟩)

theorem CheckSEC004_template (d : OpenAPISpec) :
    ∀ f ∈ CheckSEC004NoRateLimitHeaders d,
      f.RuleID = "SEC004" ∧ f.Severity = "Medium" ∧
      f.Description = "No rate limiting headers defined in responses" ∧
      f.Recommendation =
        "Include X-RateLimit-* headers to indicate API rate limits" := by
  unfold CheckSEC004NoRateLimitHeaders
  apply forEachOperation_forall
  intro path method details f hf
  simp only at hf
  split_ifs at hf
  all_goals first
    | exact absurd hf (List.not_mem_nil _)
    | (rw [List.mem_singleton] at hf; subst hf; exact ⟨rfl, rfl, rfl, rfl⟩)

theorem CheckSEC005_template (d : OpenAPISpec) :
    ∀ f ∈ CheckSEC005SensitiveQueryParams d,
      f.RuleID = "SEC005" ∧ f.Severity = "Medium" ∧
      f.Description = "Sensitive data exposed in query parameter" ∧
      f.Recommendation =
        "Avoid using sensitive data in query parameters; use headers or request body instead" := by
  unfold CheckSEC005SensitiveQueryParams
  apply forEachOperation_forall
  intro path method details f hf
  obtain ⟨p, -, hf⟩ := List.mem_flatMap.1 hf
  split at hf
  · simp at hf
  simp only at hf
  split_ifs at hf
  all_goals first
    | exact absurd hf (List.not_mem_nil _)
    | (rw [List.mem_singleton] at hf; subst hf; exact ⟨rfl, rfl, rfl, rfl⟩)

theorem CheckSEC006_template (d : OpenAPISpec) :
    ∀ f ∈ CheckSEC006MissingErrorResponses d,
      f.RuleID = "SEC006" ∧ f.Severity = "Medium" ∧
      f.Description = "Missing standard error response definitions (401, 403, 429)" ∧
      f.Recommendation =
        "Define 401, 403, and 429 error responses for better security and API resilience" := by
  unfold CheckSEC006MissingErrorResponses
  apply forEachOperation_forall
  intro path method details f hf
  simp only at hf
  split_ifs at hf
  all_goals first
    | exact absurd hf (List.not_mem_nil _)
    | (rw [List.mem_singleton] at hf; subst hf; exact ⟨rfl, rfl, rfl, rfl⟩)

theorem CheckSEC007_template (d : OpenAPISpec) :
    ∀ f ∈ CheckSEC007MissingSecurityContact d,
      f.RuleID = "SEC007" ∧ f.Severity = "Low" ∧
      f.Description = "No contact or security contact information provided" ∧
      f.Recommendation =
        "Add info.contact or x-security-contact for vulnerability reporting" := by
  intro f hf
  unfold CheckSEC007MissingSecurityContact at hf
  simp only at hf
  split_ifs at hf
  all_goals first
    | exact absurd hf (List.not_mem_nil _)
    | (rw [List.mem_singleton] at hf; subst hf; exact ⟨rfl, rfl, rfl, rfl⟩)

theorem CheckSEC008_template (d : OpenAPISpec) :
    ∀ f ∈ CheckSEC008DeprecatedWithoutSunset d,
      f.RuleID = "SEC008" ∧ f.Severity = "Low" ∧
      f.Description = "Deprecated endpoint does not specify sunset or removal information" ∧
      f.Recommendation =
        "Add sunset or deprecation timeline information for deprecated endpoints" := by
  unfold CheckSEC008DeprecatedWithoutSunset
  apply forEachOperation_forall
  intro path method details f hf
  split at hf
  · split_ifs at hf
    all_goals first
      | exact absurd hf (List.not_mem_nil _)
      | (rw [List.mem_singleton] at hf; subst hf; exact ⟨rfl, rfl, rfl, rfl⟩)
  · simp at hf

theorem CheckSEC009_template (d : OpenAPISpec) :
    ∀ f ∈ CheckSEC009WildcardServerURL d,
      f.RuleID = "SEC009" ∧ f.Severity = "High" := by
  intro f hf
  unfold CheckSEC009WildcardServerURL at hf
  split_ifs at hf
  · simp at hf
  obtain ⟨indexed, -, hf⟩ := List.mem_flatMap.1 hf
  split at hf
  · simp at hf
  simp only at hf
  split_ifs at hf
  · rw [List.mem_singleton] at hf
    subst hf
    exact ⟨rfl, rfl⟩
  · split at hf
    · rw [List.mem_singleton] at hf
      subst hf
      exact ⟨rfl, rfl⟩
    · simp at hf
  · simp at hf

theorem CheckSEC010_template (d : OpenAPISpec) :
    ∀ f ∈ CheckSEC010NoInputValidation d,
      f.RuleID = "SEC010" ∧ f.Severity = "Medium" := by
  unfold CheckSEC010NoInputValidation
  apply forEachOperation_forall
  intro path method details f hf
  simp only at hf
  rcases List.mem_append.1 hf with hf | hf
  · obtain ⟨p, -, hf⟩ := List.mem_flatMap.1 hf
    split at hf
    · simp at hf
    split at hf
    · simp at hf
    split_ifs at hf
    · rw [List.mem_singleton] at hf
      subst hf
      exact ⟨rfl, rfl⟩
    · simp at hf
  · obtain ⟨mediaEntry, -, hf⟩ := List.mem_flatMap.1 hf
    split at hf
    · simp at hf
    split at hf
    · simp at hf
    split_ifs at hf
    · rw [List.mem_singleton] at hf
      subst hf
      exact ⟨rfl, rfl⟩
    · simp at hf

/-! ### Claims on the analyzer -/

/-- C7: Analyze returns the concatenation of the outputs of the rules, in the order
of the rule list, with nothing added or dropped; with DefaultRules that is the
output of CheckSEC001 followed by CheckSEC002 and so on up to CheckSEC010, and the
k-th rule emits only findings whose rule_id is SEC00k. -/
theorem Analyze_eq_concat_in_catalog_order (rs : List Rule) (d : OpenAPISpec) :
    (NewAnalyzer rs).Analyze d = (rs.map (fun r => r d)).flatten ∧
    (NewAnalyzer DefaultRules).Analyze d =
      CheckSEC001NoGlobalSecurity d ++ (CheckSEC002UnprotectedEndpoints d ++
      (CheckSEC003HTTPAllowed d ++ (CheckSEC004NoRateLimitHeaders d ++
      (CheckSEC005SensitiveQueryParams d ++ (CheckSEC006MissingErrorResponses d ++
      (CheckSEC007MissingSecurityContact d ++ (CheckSEC008DeprecatedWithoutSunset d ++
      (CheckSEC009WildcardServerURL d ++ CheckSEC010NoInputValidation d)))))))) ∧
    (∀ f ∈ CheckSEC001NoGlobalSecurity d, f.RuleID = "SEC001") ∧
    (∀ f ∈ CheckSEC002UnprotectedEndpoints d, f.RuleID = "SEC002") ∧
    (∀ f ∈ CheckSEC003HTTPAllowed d, f.RuleID = "SEC003") ∧
    (∀ f ∈ CheckSEC004NoRateLimitHeaders d, f.RuleID = "SEC004") ∧
    (∀ f ∈ CheckSEC005SensitiveQueryParams d, f.RuleID = "SEC005") ∧
    (∀ f ∈ CheckSEC006MissingErrorResponses d, f.RuleID = "SEC006") ∧
    (∀ f ∈ CheckSEC007MissingSecurityContact d, f.RuleID = "SEC007") ∧
    (∀ f ∈ CheckSEC008DeprecatedWithoutSunset d, f.RuleID = "SEC008") ∧
    (∀ f ∈ CheckSEC009WildcardServerURL d, f.RuleID = "SEC009") ∧
    (∀ f ∈ CheckSEC010NoInputValidation d, f.RuleID = "SEC010") :=
  ⟨Analyze_eq_flatten rs d, analyzeDefault_eq d,
    fun f hf => (CheckSEC001_template d f hf).1,
    fun f hf => (CheckSEC002_template d f hf).1,
    fun f hf => (CheckSEC003_template d f hf).1,
    fun f hf => (CheckSEC004_template d f hf).1,
    fun f hf => (CheckSEC005_template d f hf).1,
    fun f hf => (CheckSEC006_template d f hf).1,
    fun f hf => (CheckSEC007_template d f hf).1,
    fun f hf => (CheckSEC008_template d f hf).1,
    fun f hf => (CheckSEC009_template d f hf).1,
    fun f hf => (CheckSEC010_template d f hf).1⟩

/-- C8, as stated, fails: on the document of scenario A the default catalog does not
yield a single finding, and the score of its findings is not 80. -/
theorem scenarioA_not_one_finding_score_80 :
    ¬ ((∃ f, analyzeDefault scenarioA = [f] ∧ f.RuleID = "SEC001" ∧
          f.Severity = "Critical" ∧ f.Location = "root") ∧
        CalculateScore (analyzeDefault scenarioA) = 80) := by
  rintro ⟨-, hscore⟩
  exact absurd hscore (by decide)

/-- C8, amended: on the document of scenario A the default catalog yields exactly two
findings, the Critical SEC001 finding at root followed by the Low SEC007 finding at
info, and the score of that list is 78. -/
theorem scenarioA_findings_and_score :
    analyzeDefault scenarioA =
      [CreateFinding "SEC001" "Critical"
         "No global security definition found in OpenAPI specification" "root"
         "Define global security schemes and apply them at the root level",
       CreateFinding "SEC007" "Low"
         "No contact or security contact information provided" "info"
         "Add info.contact or x-security-contact for vulnerability reporting"] ∧
      CalculateScore (analyzeDefault scenarioA) = 78 := by
  decide

theorem analyzeDefault_template (d : OpenAPISpec) (f : Finding) (hf : f ∈ analyzeDefault d) :
    f.Severity = (ruleTemplate f.RuleID).1 ∧
      (f.RuleID ≠ "SEC003" → f.RuleID ≠ "SEC009" → f.RuleID ≠ "SEC010" →
        f.Description = (ruleTemplate f.RuleID).2.1 ∧
        f.Recommendation = (ruleTemplate f.RuleID).2.2) := by
  rw [analyzeDefault_eq] at hf
  simp only [List.mem_append] at hf
  rcases hf with h | h | h | h | h | h | h | h | h | h
  · obtain ⟨h1, h2, h3, h4⟩ := CheckSEC001_template d f h
    rw [h1, h2, h3, h4]; decide
  · obtain ⟨h1, h2, h3, h4⟩ := CheckSEC002_template d f h
    rw [h1, h2, h3, h4]; decide
  · obtain ⟨h1, h2⟩ := CheckSEC003_template d f h
    rw [h1, h2]
    refine ⟨by decide, fun h3 h9 h10 => ?_⟩
    exact absurd rfl h3
  · obtain ⟨h1, h2, h3, h4⟩ := CheckSEC004_template d f h
    rw [h1, h2, h3, h4]; decide
  · obtain ⟨h1, h2, h3, h4⟩ := CheckSEC005_template d f h
    rw [h1, h2, h3, h4]; decide
  · obtain ⟨h1, h2, h3, h4⟩ := CheckSEC006_template d f h
    rw [h1, h2, h3, h4]; decide
  · obtain ⟨h1, h2, h3, h4⟩ := CheckSEC007_template d f h
    rw [h1, h2, h3, h4]; decide
  · obtain ⟨h1, h2, h3, h4⟩ := CheckSEC008_template d f h
    rw [h1, h2, h3, h4]; decide
  · obtain ⟨h1, h2⟩ := CheckSEC009_template d f h
    rw [h1, h2]
    refine ⟨by decide, fun h3 h9 h10 => ?_⟩
    exact absurd rfl h9
  · obtain ⟨h1, h2⟩ := CheckSEC010_template d f h
    rw [h1, h2]
    refine ⟨by decide, fun h3 h9 h10 => ?_⟩
    exact absurd rfl h10

/-- C9, as stated, fails: the findings of the default catalog on mixedDoc that share a
rule_id do not all share description and recommendation; each of SEC003, SEC009 and
SEC010 emits two findings that differ in both. -/
theorem same_rule_fields_counterexample :
    ¬ (∀ f ∈ analyzeDefault mixedDoc, ∀ g ∈ analyzeDefault mixedDoc,
        f.RuleID = g.RuleID →
          f.Severity = g.Severity ∧ f.Description = g.Description ∧
          f.Recommendation = g.Recommendation) ∧
      ∀ r ∈ ["SEC003", "SEC009", "SEC010"],
        ∃ f ∈ analyzeDefault mixedDoc, ∃ g ∈ analyzeDefault mixedDoc,
          f.RuleID = r ∧ g.RuleID = r ∧ f.Description ≠ g.Description ∧
          f.Recommendation ≠ g.Recommendation := by
  decide

/-- C9, amended: any two findings of the default catalog on one document that share a
rule_id share their severity, and, when the rule_id is none of SEC003, SEC009 and
SEC010, their description and recommendation as well. -/
theorem same_rule_same_severity (d : OpenAPISpec) (f g : Finding)
    (hf : f ∈ analyzeDefault d) (hg : g ∈ analyzeDefault d) (hid : f.RuleID = g.RuleID) :
    f.Severity = g.Severity ∧
      (f.RuleID ≠ "SEC003" → f.RuleID ≠ "SEC009" → f.RuleID ≠ "SEC010" →
        f.Description = g.Description ∧ f.Recommendation = g.Recommendation) := by
  obtain ⟨hfs, hfd⟩ := analyzeDefault_template d f hf
  obtain ⟨hgs, hgd⟩ := analyzeDefault_template d g hg
  refine ⟨by rw [hfs, hgs, hid], fun h3 h9 h10 => ?_⟩
  obtain ⟨hf1, hf2⟩ := hfd h3 h9 h10
  obtain ⟨hg1, hg2⟩ := hgd (hid ▸ h3) (hid ▸ h9) (hid ▸ h10)
  exact ⟨by rw [hf1, hg1, hid], by rw [hf2, hg2, hid]⟩

theorem same_rule_same_severity_witness :
    sec002Get ∈ analyzeDefault twoOperationsDoc ∧
      sec002Post ∈ analyzeDefault twoOperationsDoc ∧
      sec002Get.RuleID = sec002Post.RuleID ∧
      (sec002Get.Severity = sec002Post.Severity ∧
        (sec002Get.RuleID ≠ "SEC003" → sec002Get.RuleID ≠ "SEC009" →
          sec002Get.RuleID ≠ "SEC010" →
          sec002Get.Description = sec002Post.Description ∧
          sec002Get.Recommendation = sec002Post.Recommendation)) :=
  ⟨by decide, by decide, by decide,
    same_rule_same_severity twoOperationsDoc sec002Get sec002Post
      (by decide) (by decide) (by decide)⟩

/-- C10 fails on the code: a top-level security key holding null is not treated like
an absent key.  On the document nullSecurityEntries the rule SEC001 takes the key as
present and emits nothing, while SEC002 takes the same key as absent and flags the
operation; once the key is removed SEC001 emits its finding, so the two analyses
differ. -/
theorem null_security_not_treated_as_absent :
    lookupKey nullSecurityEntries "security" = some Value.null ∧
      lookupKey (eraseKey "security" nullSecurityEntries) "security" = none ∧
      CheckSEC001NoGlobalSecurity (some nullSecurityEntries) = [] ∧
      CheckSEC001NoGlobalSecurity (some (eraseKey "security" nullSecurityEntries)) =
        [CreateFinding "SEC001" "Critical"
           "No global security definition found in OpenAPI specification" "root"
           "Define global security schemes and apply them at the root level"] ∧
      CheckSEC002UnprotectedEndpoints (some nullSecurityEntries) =
        [CreateFinding "SEC002" "High" "Endpoint has no security requirements defined"
           "paths./users.get.security"
           "Apply authentication using global or operation-level security"] ∧
      analyzeDefault (some nullSecurityEntries) ≠
        analyzeDefault (some (eraseKey "security" nullSecurityEntries)) := by
  refine ⟨rfl, rfl, by decide, by decide, by decide, by decide⟩

/-! ### Operations -/

theorem forEachOperation_eq_flatMap (spec : OpenAPISpec)
    (body : String → String → Object → List Finding) :
    forEachOperation spec body
      = (operations spec).flatMap (fun op => body op.1 op.2.1 op.2.2) := by
  unfold forEachOperation operations pathOperations
  rw [List.flatMap_assoc]
  apply List.flatMap_congr
  intro pathEntry _
  split
  · rfl
  · unfold methodOperations
    rw [List.flatMap_assoc]
    apply List.flatMap_congr
    intro methodEntry _
    split_ifs
    · rfl
    · split <;> simp

/-! ### Claims on validation and on the running clamp -/

/-- C19: ValidateSpec returns no error exactly when the document is non-nil, has a
top-level paths key, and either has an openapi key holding a non-empty string or has
no openapi key and a swagger key holding the string 2.0; in every other case it
returns an error. -/
theorem ValidateSpec_ok_iff (spec : OpenAPISpec) :
    (ValidateSpec spec = Except.ok () ↔
      spec ≠ none ∧ (mapIndex spec "paths").isSome = true ∧
        ((∃ s, mapIndex spec "openapi" = some (Value.str s) ∧ s ≠ "") ∨
          (mapIndex spec "openapi" = none ∧
            mapIndex spec "swagger" = some (Value.str "2.0")))) ∧
    (ValidateSpec spec ≠ Except.ok () → ∃ msg, ValidateSpec spec = Except.error msg) := by
  constructor
  · cases spec with
    | none => simp [ValidateSpec]
    | some entries =>
      unfold ValidateSpec
      simp only [ne_eq, not_false_eq_true, true_and, reduceCtorEq]
      by_cases hp : (mapIndex (some entries) "paths").isSome = true
      · simp only [hp, Bool.not_true, Bool.false_eq_true, if_false, true_and]
        cases ho : mapIndex (some entries) "openapi" with
        | none =>
          simp only [reduceCtorEq, false_and, exists_false, false_or, true_and]
          cases hs : mapIndex (some entries) "swagger" with
          | none => simp
          | some sw =>
            cases sw <;> simp [eqString]
        | some ov =>
          cases ov <;> simp
      · simp [hp]
  · intro h
    cases hv : ValidateSpec spec with
    | error msg => exact ⟨msg, rfl⟩
    | ok u => exact absurd hv h

theorem runningClamp_foldl (fs : List Finding) (s : Int) (hs : 0 ≤ s) :
    fs.foldl (fun score finding => max 0 (score - penalty finding.Severity)) s
      = max 0 (s - totalPenalty fs) := by
  induction fs generalizing s with
  | nil => simp [totalPenalty, hs]
  | cons f fs ih =>
    have hp := penalty_nonneg f.Severity
    have ht := totalPenalty_nonneg fs
    rw [List.foldl_cons, ih _ (le_max_left 0 _), totalPenalty_cons]
    omega

/-- C20: CalculateScore, which clamps once at the end, returns the same value as the
running-clamp calculator, which clamps after every subtraction. -/
theorem CalculateScore_eq_runningClampScore (fs : List Finding)
    (hlen : fs.length ≤ maxFindings) :
    CalculateScore fs = runningClampScore fs := by
  rw [CalculateScore_eq fs hlen]
  unfold runningClampScore
  rw [runningClamp_foldl fs 100 (by omega)]

theorem CalculateScore_eq_runningClampScore_witness :
    (List.replicate 7 sampleFinding ++ sampleFindings).length ≤ maxFindings ∧
      CalculateScore (List.replicate 7 sampleFinding ++ sampleFindings)
        = runningClampScore (List.replicate 7 sampleFinding ++ sampleFindings) :=
  ⟨by decide, CalculateScore_eq_runningClampScore _ (by decide)⟩

/-! ### Claims on single rules -/

theorem flatMap_ite_singleton {α β : Type} (l : List α) (p : α → Bool) (f : α → β) :
    l.flatMap (fun a => if p a = true then [f a] else []) = (l.filter p).map f := by
  induction l with
  | nil => rfl
  | cons a l ih =>
    by_cases h : p a = true
    · simp [List.flatMap_cons, List.filter_cons, h, ih]
    · simp [List.flatMap_cons, List.filter_cons, h, ih]

/-- C12: when the document has no global security requirement, SEC002 emits exactly
one High finding at paths.path.method.security for every operation without
operation-level security, in enumeration order, and nothing else; when a global
security requirement exists it emits nothing.  The document with the one operation
/users get and no security yields the one finding at paths./users.get.security. -/
theorem CheckSEC002_per_operation (d : OpenAPISpec) :
    CheckSEC002UnprotectedEndpoints d =
      (if hasNoGlobalSecurity d = true then
        ((operations d).filter (fun op => hasNoOperationSecurity op.2.2)).map
          (fun op => sec002Finding op.1 op.2.1)
       else []) ∧
    CheckSEC002UnprotectedEndpoints usersGetDoc =
      [CreateFinding "SEC002" "High" "Endpoint has no security requirements defined"
         "paths./users.get.security"
         "Apply authentication using global or operation-level security"] := by
  refine ⟨?_, by decide⟩
  unfold CheckSEC002UnprotectedEndpoints
  rw [forEachOperation_eq_flatMap]
  by_cases hg : hasNoGlobalSecurity d = true
  · have hg2 : isNil (mapIndex d "security") = true := hg
    simp only [hg, if_true, hg2, Bool.or_true]
    rw [← flatMap_ite_singleton]
    apply List.flatMap_congr
    intro op _
    cases h : lookupKey op.2.2 "security" <;> simp [hasNoOperationSecurity, h, sec002Finding]
  · have hg2 : isNil (mapIndex d "security") = false := by
      simpa [hasNoGlobalSecurity] using hg
    have hsome : (mapIndex d "security").isSome = true := by
      cases h : mapIndex d "security" with
      | none => simp [isNil, h] at hg2
      | some v => rfl
    simp [hg, hg2, hsome]

/-- C13: on a document with an openapi key and no swagger key, SEC003 emits exactly
one High finding at servers[i].url for each entry i of the servers sequence that is a
mapping with a string url beginning with http://, in increasing index order, and
nothing else. -/
theorem CheckSEC003_v3_per_server (d : OpenAPISpec)
    (hv3 : (mapIndex d "openapi").isSome = true) (hv2 : mapIndex d "swagger" = none) :
    CheckSEC003HTTPAllowed d =
      ((asSeq (mapIndex d "servers")).enum.filter (fun indexed => isHttpServer indexed.2)).map
        (fun indexed => sec003Finding indexed.1) := by
  unfold CheckSEC003HTTPAllowed
  simp only [hv3, if_true, hv2, eqString, Bool.false_eq_true, if_false, List.append_nil]
  rw [← flatMap_ite_singleton]
  apply List.flatMap_congr
  intro indexed _
  cases h : indexed.2 with
  | map server =>
    cases hu : lookupKey server "url" with
    | none =>
      have : stringsHasPrefix "" "http://" = false := by decide
      simp [asMap, isHttpServer, hu, asString, this]
    | some u =>
      have hempty : stringsHasPrefix "" "http://" = false := by decide
      cases u <;> simp [asMap, isHttpServer, hu, asString, hempty, sec003Finding]
  | _ => simp [asMap, isHttpServer]

theorem CheckSEC003_v3_per_server_witness :
    (mapIndex scenarioC "openapi").isSome = true ∧ mapIndex scenarioC "swagger" = none ∧
      CheckSEC003HTTPAllowed scenarioC =
        ((asSeq (mapIndex scenarioC "servers")).enum.filter
          (fun indexed => isHttpServer indexed.2)).map
          (fun indexed => sec003Finding indexed.1) :=
  ⟨by decide, rfl, CheckSEC003_v3_per_server scenarioC (by decide) rfl⟩

theorem CheckSEC008_eq (d : OpenAPISpec) :
    CheckSEC008DeprecatedWithoutSunset d =
      ((operations d).filter (fun op => isDeprecatedWithoutSunset op.2.2)).map
        (fun op => sec008Finding op.1 op.2.1) := by
  unfold CheckSEC008DeprecatedWithoutSunset
  rw [forEachOperation_eq_flatMap, ← flatMap_ite_singleton]
  apply List.flatMap_congr
  intro op _
  cases hd : lookupKey op.2.2 "deprecated" with
  | none => simp [asBool, isDeprecatedWithoutSunset, hd]
  | some v =>
    cases v with
    | bool b =>
      cases b with
      | false => simp [asBool, isDeprecatedWithoutSunset, hd]
      | true =>
        cases h1 : lookupKey op.2.2 "sunset" <;>
        cases h2 : lookupKey op.2.2 "x-sunset" <;>
        cases h3 : lookupKey op.2.2 "x-deprecation-date" <;>
        simp [asBool, isDeprecatedWithoutSunset, hd, h1, h2, h3, sec008Finding]
    | _ => simp [asBool, isDeprecatedWithoutSunset, hd]

theorem CheckSEC005_eq (d : OpenAPISpec) :
    CheckSEC005SensitiveQueryParams d =
      (operations d).flatMap fun op =>
        (asSeq (lookupKey op.2.2 "parameters")).flatMap fun p =>
          if isSensitiveQueryParameter p = true then
            [sec005Finding op.1 op.2.1 (parameterName p)]
          else [] := by
  unfold CheckSEC005SensitiveQueryParams
  rw [forEachOperation_eq_flatMap]
  apply List.flatMap_congr
  intro op _
  apply List.flatMap_congr
  intro p _
  cases p with
  | map param =>
    by_cases hq : eqString (lookupKey param "in") "query" = true
    · simp only [asMap, hq, if_true, isSensitiveQueryParameter, parameterName, Bool.true_and]
      split_ifs <;> simp_all [sec005Finding]
    · simp [asMap, hq, isSensitiveQueryParameter]
  | _ => simp [asMap, isSensitiveQueryParameter]

/-- C15: for every operation and every entry of its parameters sequence, SEC005 emits
exactly one Medium finding, at paths.path.method.parameters.name, when the entry is a
mapping with in equal to query whose lower-cased name contains one of the sensitive
terms, and none otherwise.  A name with several sensitive terms gives one finding; a
query parameter named api_key gives one finding and one named id gives none. -/
theorem CheckSEC005_per_parameter (d : OpenAPISpec) :
    CheckSEC005SensitiveQueryParams d =
      ((operations d).flatMap fun op =>
        (asSeq (lookupKey op.2.2 "parameters")).flatMap fun p =>
          if isSensitiveQueryParameter p = true then
            [sec005Finding op.1 op.2.1 (parameterName p)]
          else []) ∧
    CheckSEC005SensitiveQueryParams (oneParameterDoc "auth_token" "query") =
      [CreateFinding "SEC005" "Medium" "Sensitive data exposed in query parameter"
         "paths./users.get.parameters.auth_token"
         "Avoid using sensitive data in query parameters; use headers or request body instead"] ∧
    CheckSEC005SensitiveQueryParams (oneParameterDoc "api_key" "query") =
      [CreateFinding "SEC005" "Medium" "Sensitive data exposed in query parameter"
         "paths./users.get.parameters.api_key"
         "Avoid using sensitive data in query parameters; use headers or request body instead"] ∧
    CheckSEC005SensitiveQueryParams (oneParameterDoc "id" "query") = [] ∧
    CheckSEC005SensitiveQueryParams (oneParameterDoc "api_key" "header") = [] :=
  ⟨CheckSEC005_eq d, by decide, by decide, by decide, by decide⟩

theorem CheckSEC009_eq (d : OpenAPISpec) :
    CheckSEC009WildcardServerURL d =
      if (mapIndex d "openapi").isSome = true then
        (asSeq (mapIndex d "servers")).enum.flatMap
          (fun indexed => sec009Expected indexed.1 indexed.2)
      else [] := by
  unfold CheckSEC009WildcardServerURL
  have hfind : (fun (varEntry : String × Value) =>
      match asMap (some varEntry.2) with
      | none => false
      | some variableMap => !(lookupKey variableMap "enum").isSome)
      = fun varEntry => isUnconstrainedVariable varEntry.2 := by
    funext varEntry
    cases varEntry.2 <;> simp [asMap, isUnconstrainedVariable]
  simp only [hfind]
  by_cases ho : (mapIndex d "openapi").isSome = true
  · simp only [ho, Bool.not_true, Bool.false_eq_true, if_false, if_true]
    apply List.flatMap_congr
    intro indexed _
    cases hs : indexed.2 with
    | map server =>
      simp only [asMap, sec009Expected, hasWildcard, hasTemplate]
      cases hv : lookupKey server "variables" with
      | none =>
        simp only [asMap, Option.isSome_none, Bool.not_false, Bool.and_true,
          Bool.false_eq_true, Bool.and_false]
        split_ifs <;> simp_all [sec009UrlFinding]
      | some v =>
        cases v with
        | map vars =>
          simp only [asMap, Option.isSome_some, Bool.not_true, Bool.and_false,
            Bool.false_eq_true, if_false, Bool.and_true, mapRange]
          by_cases ht : (stringsContains (asString (lookupKey server "url")) "\x7b" &&
              stringsContains (asString (lookupKey server "url")) "\x7d") = true
          · simp only [ht, if_true, Bool.or_true]
            cases List.find? (fun varEntry => isUnconstrainedVariable varEntry.2) vars <;>
              simp [sec009VariableFinding]
          · simp [ht]
        | _ =>
          simp only [asMap, Option.isSome_none, Bool.not_false, Bool.and_true,
            Bool.false_eq_true, Bool.and_false]
          split_ifs <;> simp_all [sec009UrlFinding]
    | _ => simp [asMap, sec009Expected]
  · simp [ho]

theorem sec009Expected_length_le (index : Nat) (s : Value) :
    (sec009Expected index s).length ≤ 1 := by
  unfold sec009Expected
  split
  · simp only
    split_ifs
    · split
      · simp
      · split <;> simp
    · split <;> simp
    · simp
  · simp

/-! ### Documents with one operation singled out -/

theorem lookupKey_append_of_isNone (pre rest : Object) (key : String)
    (h : (lookupKey pre key).isNone = true) :
    lookupKey (pre ++ rest) key = lookupKey rest key := by
  induction pre with
  | nil => rfl
  | cons e pre ih =>
    obtain ⟨k, v⟩ := e
    by_cases hk : k = key
    · simp [lookupKey, hk] at h
    · simp only [lookupKey, hk, if_false] at h
      simp [lookupKey, hk, ih h]

theorem lookupKey_setKey_self (key : String) (v : Value) (m : Object) :
    lookupKey (setKey key v m) key = some v := by
  induction m with
  | nil => simp [setKey, lookupKey]
  | cons e m ih =>
    obtain ⟨k, w⟩ := e
    by_cases hk : k = key
    · simp [setKey, lookupKey, hk]
    · simp [setKey, lookupKey, hk, ih]

theorem methodOperations_append_cons (path method : String) (before after details : Object)
    (hm : stringsHasPrefix method "x-" = false) :
    methodOperations path (before ++ (method, Value.map details) :: after)
      = methodOperations path before ++ (path, method, details) ::
          methodOperations path after := by
  simp [methodOperations, List.flatMap_append, List.flatMap_cons, hm, asMap]

theorem pathOperations_append_cons (path : String) (before after methods : Object) :
    pathOperations (before ++ (path, Value.map methods) :: after)
      = pathOperations before ++ methodOperations path methods ++ pathOperations after := by
  simp [pathOperations, List.flatMap_append, List.flatMap_cons, asMap]

theorem operations_withDetails (c : OperationContext) (hc : c.Valid) (details : Object) :
    operations (c.withDetails details)
      = c.operationsBefore ++ (c.path, c.method, details) :: c.operationsAfter := by
  unfold operations OperationContext.withDetails mapIndex
  simp only [lookupKey_append_of_isNone _ _ _ hc.1, lookupKey, if_true, asMap, mapRange]
  rw [pathOperations_append_cons, methodOperations_append_cons _ _ _ _ _ hc.2]
  simp [OperationContext.operationsBefore, OperationContext.operationsAfter]

theorem isDeprecatedWithoutSunset_setKey (v : Value) (details : Object) :
    isDeprecatedWithoutSunset (setKey "sunset" v details) = false := by
  simp [isDeprecatedWithoutSunset, lookupKey_setKey_self]

theorem CheckSEC008_scenarioD :
    CheckSEC008DeprecatedWithoutSunset
        (scenarioDContext.withDetails [("deprecated", Value.bool true)]) =
      [sec008Finding "/users" "get", sec008Finding "/legacy" "get",
        sec008Finding "/legacy" "post"] ∧
    CheckSEC008DeprecatedWithoutSunset
        (scenarioDContext.withDetails
          (setKey "sunset" (Value.str "2025-01-01") [("deprecated", Value.bool true)])) =
      [sec008Finding "/users" "get", sec008Finding "/legacy" "post"] := by
  decide

/-- C14: SEC008 emits exactly one Low finding at paths.path.method for an operation if
and only if the operation has deprecated equal to the boolean true and declares none of
sunset, x-sunset and x-deprecation-date; so, for an operation that triggers the finding,
setting a sunset key in it removes that finding and leaves the findings of the rule
for all other operations as they are. -/
theorem CheckSEC008_per_operation_and_sunset (d : OpenAPISpec) :
    CheckSEC008DeprecatedWithoutSunset d =
      ((operations d).filter (fun op => isDeprecatedWithoutSunset op.2.2)).map
        (fun op => sec008Finding op.1 op.2.1) ∧
    ∀ (c : OperationContext) (details : Object) (v : Value),
      c.Valid → isDeprecatedWithoutSunset details = true →
        CheckSEC008DeprecatedWithoutSunset (c.withDetails details) =
          (c.operationsBefore.filter (fun op => isDeprecatedWithoutSunset op.2.2)).map
              (fun op => sec008Finding op.1 op.2.1) ++
            sec008Finding c.path c.method ::
              (c.operationsAfter.filter (fun op => isDeprecatedWithoutSunset op.2.2)).map
                (fun op => sec008Finding op.1 op.2.1) ∧
        CheckSEC008DeprecatedWithoutSunset (c.withDetails (setKey "sunset" v details)) =
          (c.operationsBefore.filter (fun op => isDeprecatedWithoutSunset op.2.2)).map
              (fun op => sec008Finding op.1 op.2.1) ++
            (c.operationsAfter.filter (fun op => isDeprecatedWithoutSunset op.2.2)).map
              (fun op => sec008Finding op.1 op.2.1) := by
  refine ⟨CheckSEC008_eq d, ?_⟩
  intro c details v hc htrig
  constructor
  · rw [CheckSEC008_eq, operations_withDetails c hc]
    simp [List.filter_append, List.filter_cons, htrig]
  · rw [CheckSEC008_eq, operations_withDetails c hc]
    simp [List.filter_append, List.filter_cons, isDeprecatedWithoutSunset_setKey]

theorem CheckSEC008_per_operation_and_sunset_witness :
    scenarioDContext.Valid ∧
      isDeprecatedWithoutSunset [("deprecated", Value.bool true)] = true ∧
      (CheckSEC008DeprecatedWithoutSunset
          (scenarioDContext.withDetails [("deprecated", Value.bool true)]) =
        (scenarioDContext.operationsBefore.filter
            (fun op => isDeprecatedWithoutSunset op.2.2)).map
            (fun op => sec008Finding op.1 op.2.1) ++
          sec008Finding scenarioDContext.path scenarioDContext.method ::
            (scenarioDContext.operationsAfter.filter
              (fun op => isDeprecatedWithoutSunset op.2.2)).map
              (fun op => sec008Finding op.1 op.2.1) ∧
        CheckSEC008DeprecatedWithoutSunset
          (scenarioDContext.withDetails
            (setKey "sunset" (Value.str "2025-01-01") [("deprecated", Value.bool true)])) =
          (scenarioDContext.operationsBefore.filter
              (fun op => isDeprecatedWithoutSunset op.2.2)).map
              (fun op => sec008Finding op.1 op.2.1) ++
            (scenarioDContext.operationsAfter.filter
              (fun op => isDeprecatedWithoutSunset op.2.2)).map
              (fun op => sec008Finding op.1 op.2.1)) :=
  ⟨⟨by decide, by decide⟩, by decide,
    (CheckSEC008_per_operation_and_sunset scenarioA).2 scenarioDContext
      [("deprecated", Value.bool true)] (Value.str "2025-01-01")
      ⟨by decide, by decide⟩ (by decide)⟩
/-- C17, as stated, fails: the one server of wildcardWithVariablesDoc is a mapping
whose url contains the wildcard, it has a variables object, and its variable env lacks
an enum constraint, yet SEC009 emits no finding for it. -/
theorem wildcard_with_variables_not_flagged :
    (mapIndex wildcardWithVariablesDoc "openapi").isSome = true ∧
      (asSeq (mapIndex wildcardWithVariablesDoc "servers")).length = 1 ∧
      (∀ s ∈ asSeq (mapIndex wildcardWithVariablesDoc "servers"),
        ∃ server vars, s = Value.map server ∧
          hasWildcard (asString (lookupKey server "url")) = true ∧
          asMap (lookupKey server "variables") = some vars ∧
          vars.any (fun varEntry => isUnconstrainedVariable varEntry.2) = true) ∧
      CheckSEC009WildcardServerURL wildcardWithVariablesDoc = [] ∧
      ¬ (∃ name, CheckSEC009WildcardServerURL wildcardWithVariablesDoc
          = [sec009VariableFinding 0 name]) := by
  refine ⟨by decide, by decide, ?_, by decide, ?_⟩
  · intro s hs
    have hs2 : s = Value.map [("url", Value.str "https://*.example.com"),
        ("variables", Value.map [("env", Value.map [("default", Value.str "prod")])])] := by
      simpa [wildcardWithVariablesDoc, mapIndex, lookupKey, asSeq] using hs
    exact ⟨_, [("env", Value.map [("default", Value.str "prod")])], hs2, by decide, rfl,
      by decide⟩
  · rintro ⟨name, h⟩
    have h0 : CheckSEC009WildcardServerURL wildcardWithVariablesDoc = [] := by decide
    rw [h0] at h
    exact absurd h (by simp)

/-- C17, amended: SEC009 emits nothing for a document without an openapi key; for a
document with one, it emits for every entry of the servers sequence, in index order,
what sec009Expected says: the url finding for a mapping whose url has a wildcard or a
template and which has no variables object, the variable finding of the first
unconstrained variable for a mapping whose url has a template and which has a
variables object with such a variable, and nothing otherwise, in particular nothing
for a wildcard url without template that has a variables object; so each server
contributes at most one finding. -/
theorem CheckSEC009_per_server (d : OpenAPISpec) :
    CheckSEC009WildcardServerURL d =
      (if (mapIndex d "openapi").isSome = true then
        (asSeq (mapIndex d "servers")).enum.flatMap
          (fun indexed => sec009Expected indexed.1 indexed.2)
      else []) ∧
    (∀ index s, (sec009Expected index s).length ≤ 1) ∧
    ∀ (index : Nat) (server vars : Object),
      ((hasWildcard (asString (lookupKey server "url")) ||
          hasTemplate (asString (lookupKey server "url"))) = true →
        asMap (lookupKey server "variables") = none →
        sec009Expected index (Value.map server) = [sec009UrlFinding index]) ∧
      (hasTemplate (asString (lookupKey server "url")) = true →
        asMap (lookupKey server "variables") = some vars →
        ∀ varEntry,
          vars.find? (fun e => isUnconstrainedVariable e.2) = some varEntry →
          sec009Expected index (Value.map server)
            = [sec009VariableFinding index varEntry.1]) ∧
      (hasTemplate (asString (lookupKey server "url")) = true →
        asMap (lookupKey server "variables") = some vars →
        vars.find? (fun e => isUnconstrainedVariable e.2) = none →
        sec009Expected index (Value.map server) = []) ∧
      (hasTemplate (asString (lookupKey server "url")) = false →
        asMap (lookupKey server "variables") = some vars →
        sec009Expected index (Value.map server) = []) := by
  refine ⟨CheckSEC009_eq d, sec009Expected_length_le, ?_⟩
  intro index server vars
  refine ⟨?_, ?_, ?_, ?_⟩
  · intro hurl hvars
    simp [sec009Expected, hurl, hvars]
  · intro ht hvars varEntry hfind
    simp [sec009Expected, ht, hvars, hfind]
  · intro ht hvars hfind
    simp [sec009Expected, ht, hvars, hfind]
  · intro ht hvars
    simp [sec009Expected, ht, hvars]

/-! ### Extension keys -/

theorem stripPathsEntry_paths (v : Value) :
    stripPathsEntry ("paths", v) = ("paths", stripPaths v) := by
  simp [stripPathsEntry]

theorem stripPathsEntry_ne (k : String) (v : Value) (h : k ≠ "paths") :
    stripPathsEntry (k, v) = (k, v) := by
  simp [stripPathsEntry, h]

theorem lookupKey_removeExtension_paths (entries : Object) :
    lookupKey (entries.map stripPathsEntry) "paths"
      = (lookupKey entries "paths").map stripPaths := by
  induction entries with
  | nil => rfl
  | cons e rest ih =>
    obtain ⟨k, v⟩ := e
    by_cases hk : k = "paths"
    · subst hk
      rw [List.map_cons, stripPathsEntry_paths]
      simp [lookupKey]
    · rw [List.map_cons, stripPathsEntry_ne k v hk]
      simp [lookupKey, hk, ih]

theorem lookupKey_removeExtension_ne (entries : Object) (key : String) (h : key ≠ "paths") :
    lookupKey (entries.map stripPathsEntry) key = lookupKey entries key := by
  induction entries with
  | nil => rfl
  | cons e rest ih =>
    obtain ⟨k, v⟩ := e
    by_cases hk : k = "paths"
    · subst hk
      have hne : ¬ "paths" = key := fun e => h e.symm
      rw [List.map_cons, stripPathsEntry_paths]
      simp [lookupKey, hne, ih]
    · rw [List.map_cons, stripPathsEntry_ne k v hk]
      by_cases hkk : k = key
      · simp [lookupKey, hkk]
      · simp [lookupKey, hkk, ih]

theorem mapIndex_removeExtension_ne (d : OpenAPISpec) (key : String) (h : key ≠ "paths") :
    mapIndex (removeExtensionMethods d) key = mapIndex d key := by
  cases d with
  | none => rfl
  | some entries => exact lookupKey_removeExtension_ne entries key h

theorem methodOperations_filter (path : String) (methods : Object) :
    methodOperations path
        (methods.filter fun methodEntry => !stringsHasPrefix methodEntry.1 "x-")
      = methodOperations path methods := by
  induction methods with
  | nil => rfl
  | cons e rest ih =>
    by_cases hx : stringsHasPrefix e.1 "x-" = true
    · simp only [List.filter_cons, hx, Bool.not_true, Bool.false_eq_true, if_false, ih]
      simp [methodOperations, List.flatMap_cons, hx]
    · simp only [Bool.not_eq_true] at hx
      simp only [List.filter_cons, hx, Bool.not_false, if_true]
      simp only [methodOperations, List.flatMap_cons] at ih ⊢
      rw [ih]

theorem pathOperations_strip (paths : Object) :
    pathOperations (paths.map fun pathEntry => (pathEntry.1, stripExtensionKeys pathEntry.2))
      = pathOperations paths := by
  unfold pathOperations
  rw [List.flatMap_map]
  apply List.flatMap_congr
  intro pathEntry _
  cases h : pathEntry.2 <;> simp [stripExtensionKeys, asMap, methodOperations_filter]

theorem operations_removeExtension (d : OpenAPISpec) :
    operations (removeExtensionMethods d) = operations d := by
  cases d with
  | none => rfl
  | some entries =>
    unfold operations removeExtensionMethods mapIndex
    simp only [lookupKey_removeExtension_paths]
    cases h : lookupKey entries "paths" with
    | none => rfl
    | some v =>
      cases v <;> simp [stripPaths, asMap, mapRange, pathOperations_strip]

theorem forEachOperation_removeExtension (d : OpenAPISpec)
    (body : String → String → Object → List Finding) :
    forEachOperation (removeExtensionMethods d) body = forEachOperation d body := by
  rw [forEachOperation_eq_flatMap, forEachOperation_eq_flatMap, operations_removeExtension]

theorem CheckSEC001_removeExtension (d : OpenAPISpec) :
    CheckSEC001NoGlobalSecurity (removeExtensionMethods d) = CheckSEC001NoGlobalSecurity d := by
  unfold CheckSEC001NoGlobalSecurity
  simp only [mapIndex_removeExtension_ne d "swagger" (by decide),
    mapIndex_removeExtension_ne d "openapi" (by decide),
    mapIndex_removeExtension_ne d "security" (by decide),
    mapIndex_removeExtension_ne d "securityDefinitions" (by decide),
    mapIndex_removeExtension_ne d "components" (by decide)]

theorem CheckSEC002_removeExtension (d : OpenAPISpec) :
    CheckSEC002UnprotectedEndpoints (removeExtensionMethods d)
      = CheckSEC002UnprotectedEndpoints d := by
  unfold CheckSEC002UnprotectedEndpoints
  simp only [mapIndex_removeExtension_ne d "security" (by decide),
    forEachOperation_removeExtension]

theorem CheckSEC003_removeExtension (d : OpenAPISpec) :
    CheckSEC003HTTPAllowed (removeExtensionMethods d) = CheckSEC003HTTPAllowed d := by
  unfold CheckSEC003HTTPAllowed
  simp only [mapIndex_removeExtension_ne d "swagger" (by decide),
    mapIndex_removeExtension_ne d "openapi" (by decide),
    mapIndex_removeExtension_ne d "servers" (by decide),
    mapIndex_removeExtension_ne d "schemes" (by decide)]

theorem CheckSEC007_removeExtension (d : OpenAPISpec) :
    CheckSEC007MissingSecurityContact (removeExtensionMethods d)
      = CheckSEC007MissingSecurityContact d := by
  unfold CheckSEC007MissingSecurityContact
  simp only [mapIndex_removeExtension_ne d "info" (by decide)]

theorem CheckSEC009_removeExtension (d : OpenAPISpec) :
    CheckSEC009WildcardServerURL (removeExtensionMethods d)
      = CheckSEC009WildcardServerURL d := by
  unfold CheckSEC009WildcardServerURL
  simp only [mapIndex_removeExtension_ne d "openapi" (by decide),
    mapIndex_removeExtension_ne d "servers" (by decide)]

theorem analyzeDefault_removeExtension (d : OpenAPISpec) :
    analyzeDefault (removeExtensionMethods d) = analyzeDefault d := by
  rw [analyzeDefault_eq, analyzeDefault_eq, CheckSEC001_removeExtension,
    CheckSEC002_removeExtension, CheckSEC003_removeExtension, CheckSEC007_removeExtension,
    CheckSEC009_removeExtension]
  simp only [CheckSEC004NoRateLimitHeaders, CheckSEC005SensitiveQueryParams,
    CheckSEC006MissingErrorResponses, CheckSEC008DeprecatedWithoutSunset,
    CheckSEC010NoInputValidation, forEachOperation_removeExtension]

theorem operations_method_not_extension (d : OpenAPISpec) :
    ∀ op ∈ operations d, stringsHasPrefix op.2.1 "x-" = false := by
  intro op hop
  unfold operations pathOperations at hop
  obtain ⟨pathEntry, -, hop⟩ := List.mem_flatMap.1 hop
  split at hop
  · simp at hop
  · unfold methodOperations at hop
    obtain ⟨methodEntry, -, hop⟩ := List.mem_flatMap.1 hop
    split_ifs at hop with hx
    · simp at hop
    · split at hop
      · simp at hop
      · rw [List.mem_singleton] at hop
        subst hop
        simpa using hx

theorem stringsHasPrefix_append (s t : String) : stringsHasPrefix (s ++ t) s = true := by
  unfold stringsHasPrefix
  rw [String.data_append, List.isPrefixOf_iff_prefix]
  exact List.prefix_append _ _

theorem stringsHasPrefix_append_append (s t u : String) :
    stringsHasPrefix (s ++ t ++ u) s = true := by
  unfold stringsHasPrefix
  rw [String.data_append, String.data_append, List.append_assoc, List.isPrefixOf_iff_prefix]
  exact List.prefix_append _ _

theorem stringsHasPrefix_self (s : String) : stringsHasPrefix s s = true := by
  unfold stringsHasPrefix
  rw [List.isPrefixOf_iff_prefix]

theorem forEachOperation_located (spec : OpenAPISpec)
    (body : String → String → Object → List Finding)
    (h : ∀ path method details, ∀ f ∈ body path method details,
      locatedAtOperation f path method) :
    ∀ f ∈ forEachOperation spec body,
      ∃ op ∈ operations spec,
        stringsHasPrefix op.2.1 "x-" = false ∧ locatedAtOperation f op.1 op.2.1 := by
  intro f hf
  rw [forEachOperation_eq_flatMap] at hf
  obtain ⟨op, hop, hf⟩ := List.mem_flatMap.1 hf
  exact ⟨op, hop, operations_method_not_extension spec op hop, h _ _ _ f hf⟩
theorem CheckSEC002_located (d : OpenAPISpec) :
    ∀ f ∈ CheckSEC002UnprotectedEndpoints d,
      ∃ op ∈ operations d,
        stringsHasPrefix op.2.1 "x-" = false ∧ locatedAtOperation f op.1 op.2.1 := by
  unfold CheckSEC002UnprotectedEndpoints
  apply forEachOperation_located
  intro path method details f hf
  simp only at hf
  split_ifs at hf
  all_goals first
    | exact absurd hf (List.not_mem_nil _)
    | (rw [List.mem_singleton] at hf; subst hf
       exact stringsHasPrefix_append _ _)

theorem CheckSEC004_located (d : OpenAPISpec) :
    ∀ f ∈ CheckSEC004NoRateLimitHeaders d,
      ∃ op ∈ operations d,
        stringsHasPrefix op.2.1 "x-" = false ∧ locatedAtOperation f op.1 op.2.1 := by
  unfold CheckSEC004NoRateLimitHeaders
  apply forEachOperation_located
  intro path method details f hf
  simp only at hf
  split_ifs at hf
  all_goals first
    | exact absurd hf (List.not_mem_nil _)
    | (rw [List.mem_singleton] at hf; subst hf
       exact stringsHasPrefix_append _ _)

theorem CheckSEC005_located (d : OpenAPISpec) :
    ∀ f ∈ CheckSEC005SensitiveQueryParams d,
      ∃ op ∈ operations d,
        stringsHasPrefix op.2.1 "x-" = false ∧ locatedAtOperation f op.1 op.2.1 := by
  unfold CheckSEC005SensitiveQueryParams
  apply forEachOperation_located
  intro path method details f hf
  obtain ⟨p, -, hf⟩ := List.mem_flatMap.1 hf
  split at hf
  · simp at hf
  simp only at hf
  split_ifs at hf
  all_goals first
    | exact absurd hf (List.not_mem_nil _)
    | (rw [List.mem_singleton] at hf; subst hf
       exact stringsHasPrefix_append_append _ _ _)

theorem CheckSEC006_located (d : OpenAPISpec) :
    ∀ f ∈ CheckSEC006MissingErrorResponses d,
      ∃ op ∈ operations d,
        stringsHasPrefix op.2.1 "x-" = false ∧ locatedAtOperation f op.1 op.2.1 := by
  unfold CheckSEC006MissingErrorResponses
  apply forEachOperation_located
  intro path method details f hf
  simp only at hf
  split_ifs at hf
  all_goals first
    | exact absurd hf (List.not_mem_nil _)
    | (rw [List.mem_singleton] at hf; subst hf
       exact stringsHasPrefix_append _ _)

theorem CheckSEC008_located (d : OpenAPISpec) :
    ∀ f ∈ CheckSEC008DeprecatedWithoutSunset d,
      ∃ op ∈ operations d,
        stringsHasPrefix op.2.1 "x-" = false ∧ locatedAtOperation f op.1 op.2.1 := by
  unfold CheckSEC008DeprecatedWithoutSunset
  apply forEachOperation_located
  intro path method details f hf
  split at hf
  swap
  · simp at hf
  split_ifs at hf
  all_goals first
    | exact absurd hf (List.not_mem_nil _)
    | (rw [List.mem_singleton] at hf; subst hf
       exact stringsHasPrefix_self _)

theorem CheckSEC010_located (d : OpenAPISpec) :
    ∀ f ∈ CheckSEC010NoInputValidation d,
      ∃ op ∈ operations d,
        stringsHasPrefix op.2.1 "x-" = false ∧ locatedAtOperation f op.1 op.2.1 := by
  unfold CheckSEC010NoInputValidation
  apply forEachOperation_located
  intro path method details f hf
  simp only at hf
  rcases List.mem_append.1 hf with hf | hf
  · obtain ⟨p, -, hf⟩ := List.mem_flatMap.1 hf
    split at hf
    · simp at hf
    split at hf
    · simp at hf
    split_ifs at hf
    · rw [List.mem_singleton] at hf
      subst hf
      exact stringsHasPrefix_append_append _ _ _
    · simp at hf
  · obtain ⟨mediaEntry, -, hf⟩ := List.mem_flatMap.1 hf
    split at hf
    · simp at hf
    split at hf
    · simp at hf
    split_ifs at hf
    · rw [List.mem_singleton] at hf
      subst hf
      exact stringsHasPrefix_append _ _
    · simp at hf

/-- C18: removing from every path-item mapping under paths all keys that begin with x-
leaves the findings of each of the six rules that iterate operations, and of the
analysis with the default catalog, unchanged; and every finding of those six rules is
located at paths.path.method for an operation of the document whose method key does
not begin with x-. -/
theorem extension_keys_are_no_methods (d : OpenAPISpec) :
    CheckSEC002UnprotectedEndpoints (removeExtensionMethods d)
        = CheckSEC002UnprotectedEndpoints d ∧
      CheckSEC004NoRateLimitHeaders (removeExtensionMethods d)
        = CheckSEC004NoRateLimitHeaders d ∧
      CheckSEC005SensitiveQueryParams (removeExtensionMethods d)
        = CheckSEC005SensitiveQueryParams d ∧
      CheckSEC006MissingErrorResponses (removeExtensionMethods d)
        = CheckSEC006MissingErrorResponses d ∧
      CheckSEC008DeprecatedWithoutSunset (removeExtensionMethods d)
        = CheckSEC008DeprecatedWithoutSunset d ∧
      CheckSEC010NoInputValidation (removeExtensionMethods d)
        = CheckSEC010NoInputValidation d ∧
      analyzeDefault (removeExtensionMethods d) = analyzeDefault d ∧
      ∀ f ∈ pathRuleFindings d,
        ∃ op ∈ operations d,
          stringsHasPrefix op.2.1 "x-" = false ∧ locatedAtOperation f op.1 op.2.1 := by
  refine ⟨CheckSEC002_removeExtension d, ?_, ?_, ?_, ?_, ?_,
    analyzeDefault_removeExtension d, ?_⟩
  · simp only [CheckSEC004NoRateLimitHeaders, forEachOperation_removeExtension]
  · simp only [CheckSEC005SensitiveQueryParams, forEachOperation_removeExtension]
  · simp only [CheckSEC006MissingErrorResponses, forEachOperation_removeExtension]
  · simp only [CheckSEC008DeprecatedWithoutSunset, forEachOperation_removeExtension]
  · simp only [CheckSEC010NoInputValidation, forEachOperation_removeExtension]
  · intro f hf
    simp only [pathRuleFindings, List.mem_append] at hf
    rcases hf with ((((h | h) | h) | h) | h) | h
    · exact CheckSEC002_located d f h
    · exact CheckSEC004_located d f h
    · exact CheckSEC005_located d f h
    · exact CheckSEC006_located d f h
    · exact CheckSEC008_located d f h
    · exact CheckSEC010_located d f h

/-! ### Enumeration order -/

/-- C11 fails on the code: regionThenEnv and envThenRegion are two enumeration orders
of the same variables mapping, so the two documents are the same Go value, yet SEC009
reports the variable that happens to be enumerated first, and the sets of (rule_id,
location) pairs of the two analyses differ. -/
theorem sec009_location_depends_on_enumeration_order :
    regionThenEnv.Perm envThenRegion ∧
      findingPairs (analyzeDefault (templatedServerDoc regionThenEnv)) =
        [("SEC001", "root"), ("SEC007", "info"), ("SEC009", "servers[0].variables.region")] ∧
      findingPairs (analyzeDefault (templatedServerDoc envThenRegion)) =
        [("SEC001", "root"), ("SEC007", "info"), ("SEC009", "servers[0].variables.env")] ∧
      ¬ (∀ pair, pair ∈ findingPairs (analyzeDefault (templatedServerDoc regionThenEnv)) ↔
          pair ∈ findingPairs (analyzeDefault (templatedServerDoc envThenRegion))) := by
  refine ⟨List.Perm.swap _ _ _, by decide, by decide, ?_⟩
  intro h
  have h1 := (h ("SEC009", "servers[0].variables.region")).1 (by decide)
  exact absurd h1 (by decide)

/-! ### Renaming a parameter -/

/-- C21: GroupFindings is total.  For every finding list, the empty list included, and
every enumeration order of the internal map, every group held in the map after the
first loop is non-empty, so items[0] is in range and GroupFindings returns a result;
every returned entry has a count of at least 1 that equals the length of its
locations. -/
theorem GroupFindings_total (rangeOrder : GroupMap → GroupMap)
    (horder : IsRangeOrder rangeOrder) (fs : List Finding) :
    (∀ entry ∈ buildGroupMap fs, entry.2 ≠ []) ∧
      (∀ entry ∈ rangeOrder (buildGroupMap fs),
        ∃ g, groupEntry entry.1 entry.2 = some g) ∧
      GroupFindings rangeOrder [] = some [] ∧
      ∃ gs, GroupFindings rangeOrder fs = some gs ∧
        ∀ g ∈ gs, 1 ≤ g.Count ∧ g.Count = g.Locations.length := by
  have hbuilt := GroupInv_buildGroupMap fs
  have hinv := GroupInv_perm hbuilt (horder (buildGroupMap fs))
  refine ⟨GroupInv_items_ne_nil hbuilt, ?_, ?_, ?_⟩
  · intro entry hentry
    have hne := GroupInv_items_ne_nil hinv entry hentry
    cases hitems : entry.2 with
    | nil => exact absurd hitems hne
    | cons first rest => exact ⟨_, rfl⟩
  · have hnil : rangeOrder [] = [] := List.Perm.eq_nil (horder [])
    simp [GroupFindings, buildGroupMap, hnil, collectGroups]
  · obtain ⟨gs, hgs, -, -, hall⟩ := collectGroups_some _ (GroupInv_items_ne_nil hinv)
    refine ⟨gs, hgs, ?_⟩
    intro g hg
    obtain ⟨first, rest, -, hcount, hloc, -⟩ := hall g hg
    refine ⟨?_, ?_⟩
    · rw [hcount]
      simp
    · rw [hcount, hloc]
      simp

theorem GroupFindings_total_witness :
    IsRangeOrder List.reverse ∧
      ((∀ entry ∈ buildGroupMap sampleFindings, entry.2 ≠ []) ∧
        (∀ entry ∈ List.reverse (buildGroupMap sampleFindings),
          ∃ g, groupEntry entry.1 entry.2 = some g) ∧
        GroupFindings List.reverse [] = some [] ∧
        ∃ gs, GroupFindings List.reverse sampleFindings = some gs ∧
          ∀ g ∈ gs, 1 ≤ g.Count ∧ g.Count = g.Locations.length) :=
  ⟨fun m => List.reverse_perm m,
    GroupFindings_total List.reverse (fun m => List.reverse_perm m) sampleFindings⟩

end SecScan
